import Mathlib

/-!
# Verification of the IHUB processor core (`src/app.py`)

Shallow embedding of the message scanner (`process_excel`), the message
extractor (`_extract_messages`) and the field extractor
(`process_xml_and_populate_xl_sheet`) of `src/app.py`, together with
theorems settling the specification claims.

Modelling conventions:
* Python strings are Lean `String`s; the character classes of the regular
  expressions (`\w`, `\s`, case folding) are modelled over the ASCII
  repertoire actually used by the patterns, as documented on each definition.
* The lxml recover-mode parse (`etree.fromstring` with `recover=True`) is an
  external library call; it is taken as a parameter
  `parse : String → Except PyErr Xml` of the scanner, and the field
  extractor is embedded as a function of the parsed tree.
* Python exceptions are modelled with `Except PyErr`.
* The output worksheet is a journal of cell writes (most recent first).
-/

/-- A Python exception value (only the cases this program can raise). -/
inductive PyErr where
  | valueError (msg : String)
  | otherError (msg : String)
deriving DecidableEq, Repr

instance {ε α : Type} [DecidableEq ε] [DecidableEq α] : DecidableEq (Except ε α) := fun a b =>
  match a, b with
  | .ok x, .ok y => if h : x = y then .isTrue (by rw [h]) else .isFalse (by simp [h])
  | .error x, .error y => if h : x = y then .isTrue (by rw [h]) else .isFalse (by simp [h])
  | .ok _, .error _ => .isFalse (by simp)
  | .error _, .ok _ => .isFalse (by simp)

/-! ## Character classes of the regular expressions

The tag patterns of `app.py` are
`OPEN_TAG_RE  = re.compile(r'<\s*(?:\w+:)?intercompanymessage\b', re.IGNORECASE)` and
`CLOSE_TAG_RE = re.compile(r'</\s*(?:\w+:)?intercompanymessage\s*>', re.IGNORECASE)`.
`\w`, `\s` and `IGNORECASE` are modelled over ASCII (the pattern text itself
is ASCII; non-ASCII word/space characters are outside the model). -/

/-- Model of the regex class `\w` (ASCII letters, digits, underscore). -/
def isWordChar (c : Char) : Bool := c.isAlphanum || c = '_'

/-- Model of the regex class `\s`
(space, tab, newline, carriage return, vertical tab, form feed). -/
def isSpaceChar (c : Char) : Bool :=
  c = ' ' || c = '\t' || c = '\n' || c = '\r' || c = '\x0b' || c = '\x0c'

/-- The literal tag name of the patterns, lower case. -/
def tagNameChars : List Char := "intercompanymessage".data

/-- Match a literal (lower-case ASCII) pattern case-insensitively at the head
of `l`; on success return the remaining characters. -/
def matchCI : List Char → List Char → Option (List Char)
  | [], l => some l
  | _ :: _, [] => none
  | p :: ps, c :: cs => if c.toLower = p then matchCI ps cs else none

/-- Greedily consume `\s*`. -/
def dropSpaces (l : List Char) : List Char := l.dropWhile isSpaceChar

/-- Match `(\w+:)?intercompanymessage` at the head of `l` (the regex engine
prefers the prefixed alternative, falling back to the bare name); return the
remaining characters.  Used for the span pattern of `_extract_messages`,
which has no `\b` after the name. -/
def matchNameOpt (l : List Char) : Option (List Char) :=
  let run := l.takeWhile isWordChar
  let rest := l.dropWhile isWordChar
  match (if run ≠ [] then
           match rest with
           | ':' :: r2 => matchCI tagNameChars r2
           | _ => none
         else none) with
  | some r => some r
  | none => matchCI tagNameChars l

/-- `\b` after the tag name: the next character is absent or not a word
character, i.e. `matchCI` succeeded and the rest starts with a non-word
character (or is empty). -/
def nameThenBoundary (l : List Char) : Bool :=
  match matchCI tagNameChars l with
  | some [] => true
  | some (c :: _) => !(isWordChar c)
  | none => false

/-- `OPEN_TAG_RE` matched at the head of `l`:
`<\s*(?:\w+:)?intercompanymessage\b` (case-insensitive).  The regex engine
backtracks from the prefixed alternative to the bare one when the word
boundary fails, so both alternatives are tried with the boundary test. -/
def openAt (l : List Char) : Bool :=
  match l with
  | '<' :: r =>
    let l1 := dropSpaces r
    let run := l1.takeWhile isWordChar
    let rest := l1.dropWhile isWordChar
    (decide (run ≠ []) &&
      (match rest with
       | ':' :: r2 => nameThenBoundary r2
       | _ => false))
    || nameThenBoundary l1
  | _ => false

/-- The tail of `CLOSE_TAG_RE` after the optional prefix:
`intercompanymessage\s*>`; on success return the characters after `>`. -/
def closeTail (l : List Char) : Option (List Char) :=
  match matchCI tagNameChars l with
  | some r =>
    match dropSpaces r with
    | '>' :: r2 => some r2
    | _ => none
  | none => none

/-- `CLOSE_TAG_RE` matched at the head of `l`:
`</\s*(?:\w+:)?intercompanymessage\s*>` (case-insensitive); on success return
the characters after the closing `>`. -/
def closeAt (l : List Char) : Option (List Char) :=
  match l with
  | '<' :: '/' :: r =>
    let l1 := dropSpaces r
    let run := l1.takeWhile isWordChar
    let rest := l1.dropWhile isWordChar
    (match (if run ≠ [] then
              match rest with
              | ':' :: r2 => closeTail r2
              | _ => none
            else none) with
     | some r2 => some r2
     | none => closeTail l1)
  | _ => none

/-- `re.search`: does `p` match at some position of `l`? -/
def existsMatch (p : List Char → Bool) : List Char → Bool
  | [] => p []
  | c :: cs => p (c :: cs) || existsMatch p cs

/-- `OPEN_TAG_RE.search(s) is not None`. -/
def hasOpenTag (s : String) : Bool := existsMatch openAt s.data

/-- `CLOSE_TAG_RE.search(s) is not None`. -/
def hasCloseTag (s : String) : Bool := existsMatch (fun l => (closeAt l).isSome) s.data

/-- `"<?xml" in s` (a case-sensitive substring test). -/
def containsXmlDecl (s : String) : Bool :=
  existsMatch (fun l => "<?xml".data.isPrefixOf l) s.data

/-! ## `_extract_messages` -/

/-- The opening part of the span pattern of `_extract_messages`
(`<\s*(?:\w+:)?intercompanymessage`, no word boundary) matched at the head of
`l`; on success return the remaining characters. -/
def openSpanAt (l : List Char) : Option (List Char) :=
  match l with
  | '<' :: r => matchNameOpt (dropSpaces r)
  | _ => none

/-- The lazy `[\s\S]*?` before the closing tag: the earliest position at or
after the head of `l` where `CLOSE_TAG_RE` matches; on success return the
characters after the match. -/
def findClose : List Char → Option (List Char)
  | [] => none
  | c :: cs =>
    match closeAt (c :: cs) with
    | some r => some r
    | none => findClose cs

/-- One scan of `pattern.findall` for
`(<\s*(?:\w+:)?intercompanymessage[\s\S]*?</\s*(?:\w+:)?intercompanymessage\s*>)`:
at each position, if the opening part matches and a closing match follows,
emit the span and continue after it (matches are non-overlapping); otherwise
move one character right.  `fuel` bounds the number of steps; every step
consumes at least one character, so the caller passes the input length. -/
def findSpansAux : Nat → List Char → List (List Char)
  | 0, _ => []
  | _ + 1, [] => []
  | fuel + 1, c :: cs =>
    match openSpanAt (c :: cs) with
    | none => findSpansAux fuel cs
    | some afterOpen =>
      match findClose afterOpen with
      | none => findSpansAux fuel cs
      | some r2 =>
        (c :: cs).take ((c :: cs).length - r2.length) :: findSpansAux fuel r2

/-- All message spans in `l`, leftmost-first, non-overlapping. -/
def findSpans (l : List Char) : List (List Char) := findSpansAux l.length l

/-- Match `\s*<\?xml[^\>]*\?>` (case-insensitive) at the head of `l`:
after `<?xml`, the greedy `[^>]*` forces the match to end at the first `>`,
which must be immediately preceded by `?`.  On success return the characters
after the `>`. -/
def upToGt : List Char → Option (List Char)
  | '?' :: '>' :: r => some r
  | '>' :: _ => none
  | _ :: rest => upToGt rest
  | [] => none

/-- `xmlDeclAt l`: the declaration-removal pattern matched at the head. -/
def xmlDeclAt (l : List Char) : Option (List Char) :=
  match dropSpaces l with
  | '<' :: '?' :: c1 :: c2 :: c3 :: r =>
    if c1.toLower = 'x' && c2.toLower = 'm' && c3.toLower = 'l' then upToGt r
    else none
  | _ => none

/-- `re.sub(r'\s*<\?xml[^\>]*\?>', '', msg)`: remove every non-overlapping
leftmost match.  `fuel` bounds the steps (each consumes at least one
character), so the caller passes the input length. -/
def removeXmlDeclsAux : Nat → List Char → List Char
  | 0, l => l
  | _ + 1, [] => []
  | fuel + 1, c :: cs =>
    match xmlDeclAt (c :: cs) with
    | some r => removeXmlDeclsAux fuel r
    | none => c :: removeXmlDeclsAux fuel cs

def removeXmlDecls (l : List Char) : List Char := removeXmlDeclsAux l.length l

/-- Model of Python `str.strip()` over the ASCII whitespace repertoire. -/
def pyStrip (s : String) : String :=
  String.mk (((s.data.dropWhile isSpaceChar).reverse.dropWhile isSpaceChar).reverse)

/-- `_extract_messages` (`app.py` lines 32-48): remove byte-order marks, trim,
find every message span; raise `ValueError` when none is found; strip XML
declarations and surrounding whitespace from each span. -/
def extract_messages (raw : String) : Except PyErr (List String) :=
  let cleaned := pyStrip (String.mk (raw.data.filter (fun c => c ≠ '\uFEFF')))
  let spans := findSpans cleaned.data
  match spans with
  | [] => .error (.valueError "No intercompanyMessage blocks found.")
  | _ => .ok (spans.map (fun sp => pyStrip (String.mk (removeXmlDecls sp))))

/-! ## Python digit classification and `int()`

`process_xml_and_populate_xl_sheet` runs `str(int(i))` on every trimmed
`sequenceNumber` that passes `str.isdigit()`.  Python's `str.isdigit` accepts
every Unicode character of digit type — including the superscript digits
U+00B9/U+00B2/U+00B3, which `int()` rejects with a `ValueError` because they
are not decimal digits.  The models below cover the ASCII decimal digits and
those three superscripts; other Unicode digit classes are outside the model. -/

/-- Model of Python's per-character digit test (`str.isdigit`), restricted to
ASCII decimal digits plus the superscript digits one, two, three. -/
def pyIsDigitChar (c : Char) : Bool :=
  c.isDigit || c = '¹' || c = '²' || c = '³'

/-- `s.isdigit()`: non-empty and every character a digit. -/
def pyStrIsDigit (s : String) : Bool :=
  decide (s.data ≠ []) && s.data.all pyIsDigitChar

/-- Model of Python `int(s)` for the strings reachable here (all characters
passed `isdigit`): succeeds exactly when every character is an ASCII decimal
digit, yielding the decimal value; non-decimal digit characters (the
superscripts) make `int` raise `ValueError`. -/
def pyInt? (s : String) : Option Nat :=
  if s.data ≠ [] ∧ s.data.all Char.isDigit then
    some (s.data.foldl (fun a c => a * 10 + (c.toNat - 48)) 0)
  else none

/-- One entry of the `POLINESEQNRS` loop (`app.py` lines 88-93):
`i = (i or "").strip(); str(int(i)) if i.isdigit() else i`.
The `int` call raises on digit-but-not-decimal input and nothing catches it. -/
def normSeqEntry (s : String) : Except PyErr String :=
  let i := pyStrip s
  if pyStrIsDigit i then
    match pyInt? i with
    | some v => .ok (Nat.repr v)
    | none => .error (.valueError ("invalid literal for int() with base 10: " ++ i))
  else .ok i

/-! ## Dates: `datetime.strptime(s, "%Y-%m-%d").strftime("%d.%m.%Y")`

CPython's `_strptime` compiles `"%Y-%m-%d"` to the anchored regex
`(?P<Y>\d\d\d\d)-(?P<m>1[0-2]|0[1-9]|[1-9])-(?P<d>3[0-1]|[1-2]\d|0[1-9]|[1-9]| [1-9])`,
raises on leftover characters after the match, and then `datetime` validates
the calendar date (year ≥ 1, day within the month).  `strftime("%d.%m.%Y")`
zero-pads day and month to two digits; `%Y` (glibc) prints the year
unpadded. -/

/-- Decimal digit value of a character (meaningful for `'0'`-`'9'`). -/
def chVal (c : Char) : Nat := c.toNat

/-- The month alternatives `1[0-2]|0[1-9]|[1-9]`, in regex preference order,
each with the remaining characters. -/
def monthAlts (l : List Char) : List (Nat × List Char) :=
  (match l with
   | c1 :: c2 :: r =>
     if chVal c1 = 49 ∧ 48 ≤ chVal c2 ∧ chVal c2 ≤ 50 then [(10 + (chVal c2 - 48), r)] else []
   | _ => []) ++
  (match l with
   | c1 :: c2 :: r =>
     if chVal c1 = 48 ∧ 49 ≤ chVal c2 ∧ chVal c2 ≤ 57 then [(chVal c2 - 48, r)] else []
   | _ => []) ++
  (match l with
   | c1 :: r =>
     if 49 ≤ chVal c1 ∧ chVal c1 ≤ 57 then [(chVal c1 - 48, r)] else []
   | _ => [])

/-- The day alternatives `3[0-1]|[1-2]\d|0[1-9]|[1-9]| [1-9]`, in regex
preference order. -/
def dayAlts (l : List Char) : List (Nat × List Char) :=
  (match l with
   | c1 :: c2 :: r =>
     if chVal c1 = 51 ∧ 48 ≤ chVal c2 ∧ chVal c2 ≤ 49 then [(30 + (chVal c2 - 48), r)] else []
   | _ => []) ++
  (match l with
   | c1 :: c2 :: r =>
     if 49 ≤ chVal c1 ∧ chVal c1 ≤ 50 ∧ 48 ≤ chVal c2 ∧ chVal c2 ≤ 57 then
       [((chVal c1 - 48) * 10 + (chVal c2 - 48), r)] else []
   | _ => []) ++
  (match l with
   | c1 :: c2 :: r =>
     if chVal c1 = 48 ∧ 49 ≤ chVal c2 ∧ chVal c2 ≤ 57 then [(chVal c2 - 48, r)] else []
   | _ => []) ++
  (match l with
   | c1 :: r =>
     if 49 ≤ chVal c1 ∧ chVal c1 ≤ 57 then [(chVal c1 - 48, r)] else []
   | _ => []) ++
  (match l with
   | c1 :: c2 :: r =>
     if chVal c1 = 32 ∧ 49 ≤ chVal c2 ∧ chVal c2 ≤ 57 then [(chVal c2 - 48, r)] else []
   | _ => [])

/-- Try alternatives in order with a continuation (regex backtracking). -/
def firstOk? {α β : Type} : List α → (α → Option β) → Option β
  | [], _ => none
  | a :: as, f =>
    match f a with
    | some b => some b
    | none => firstOk? as f

/-- Gregorian leap year. -/
def isLeapYear (y : Nat) : Bool := (y % 4 = 0 && y % 100 ≠ 0) || y % 400 = 0

def daysInMonth (y m : Nat) : Nat :=
  if m = 2 then (if isLeapYear y then 29 else 28)
  else if m = 4 ∨ m = 6 ∨ m = 9 ∨ m = 11 then 30 else 31

/-- `datetime`'s constructor validation for the values produced here. -/
def dateOk (y m d : Nat) : Bool :=
  decide (1 ≤ y) && decide (1 ≤ m) && decide (m ≤ 12) &&
  decide (1 ≤ d) && decide (d ≤ daysInMonth y m)

/-- `datetime.strptime(s, "%Y-%m-%d")`: `none` models the `ValueError`s
(format mismatch, leftover data, invalid calendar date). The month group
backtracks when the following `-` + day group fails; the day group is last,
so its first matching alternative wins and leftover input then raises. -/
def strptimeYMD? (s : String) : Option (Nat × Nat × Nat) :=
  match s.data with
  | y1 :: y2 :: y3 :: y4 :: dash :: rest =>
    if dash = '-' ∧ y1.isDigit ∧ y2.isDigit ∧ y3.isDigit ∧ y4.isDigit then
      let y := (((chVal y1 - 48) * 10 + (chVal y2 - 48)) * 10 + (chVal y3 - 48)) * 10 +
               (chVal y4 - 48)
      match firstOk? (monthAlts rest) (fun mr =>
        match mr.2 with
        | c :: rest2 =>
          if c = '-' then (dayAlts rest2).head?.map (fun dr => (mr.1, dr.1, dr.2)) else none
        | [] => none) with
      | some (m, d, restF) =>
        if restF = [] ∧ dateOk y m d then some (y, m, d) else none
      | none => none
    else none
  | _ => none

/-- The character `'0'` + `n % 10`. -/
def digitChar (n : Nat) : Char :=
  match n % 10 with
  | 0 => '0' | 1 => '1' | 2 => '2' | 3 => '3' | 4 => '4'
  | 5 => '5' | 6 => '6' | 7 => '7' | 8 => '8' | _ => '9'

/-- `strftime` zero-padded two-digit field (`%d`, `%m`). -/
def pad2 (n : Nat) : String := String.mk [digitChar (n / 10), digitChar n]

/-- `strftime("%d.%m.%Y")` on a parsed date: day and month zero-padded,
year unpadded (glibc `%Y`). -/
def fmtDMY (y m d : Nat) : String := pad2 d ++ "." ++ pad2 m ++ "." ++ Nat.repr y

/-- `datetime.strptime(s, "%Y-%m-%d").strftime("%d.%m.%Y")` with every
exception mapped to `""` (the `try`/`except` of `app.py`). -/
def reformatDate (s : String) : String :=
  match strptimeYMD? s with
  | some (y, m, d) => fmtDMY y m d
  | none => ""

/-- `POCREATEDATE` (`app.py` lines 79-83): reformat when the raw text is
non-empty, `""` otherwise; exceptions map to `""`. -/
def poCreateDateOf (raw : String) : String :=
  if raw ≠ "" then reformatDate raw else ""

/-- One entry of the `EXPC_SHIP_DATE` loop (`app.py` lines 122-130): the
stripped value is only tested for `None`/`"None"`/`""`; the original value is
reformatted; exceptions map to `""`. -/
def expcShipDate (date : String) : String :=
  if ¬ (pyStrip date = "None" ∨ pyStrip date = "") then reformatDate date else ""

/-! ## The parsed XML tree and the XPath queries of the extractor

The recover-mode lxml parse result is modelled as a tree of elements and text
nodes.  The queries used by `process_xml_and_populate_xl_sheet` are all of
the form `//a//b//name[...]` (descendant axes from the document root) or
`./child/...` (child steps relative to a line item); they are implemented by
a document-order traversal that pairs every node with its chain of proper
ancestors, matching lxml's document-ordered, duplicate-free node sets. -/

inductive Xml where
  | elem (tag : String) (attrs : List (String × String)) (children : List Xml)
  | text (s : String)

mutual
def Xml.beq : Xml → Xml → Bool
  | .elem t1 a1 c1, .elem t2 a2 c2 => t1 == t2 && a1 == a2 && Xml.beqList c1 c2
  | .text s1, .text s2 => s1 == s2
  | _, _ => false
def Xml.beqList : List Xml → List Xml → Bool
  | [], [] => true
  | x :: xs, y :: ys => Xml.beq x y && Xml.beqList xs ys
  | _, _ => false
end

def Xml.tag? : Xml → Option String
  | .elem t _ _ => some t
  | .text _ => none

def Xml.attr? (a : String) : Xml → Option String
  | .elem _ attrs _ => (attrs.find? (fun p => p.1 = a)).map Prod.snd
  | .text _ => none

def Xml.childNodes : Xml → List Xml
  | .elem _ _ cs => cs
  | .text _ => []

/-- The direct text-node children of a node (`/text()` after a final element
step), in document order. -/
def Xml.textChildren (x : Xml) : List String :=
  x.childNodes.filterMap (fun c =>
    match c with
    | .text s => some s
    | .elem _ _ _ => none)

mutual
/-- Document-order (preorder) traversal pairing every node with the list of
its proper ancestor elements, outermost first. -/
def collectAnc (anc : List Xml) : Xml → List (List Xml × Xml)
  | .elem tg attrs cs =>
    (anc, .elem tg attrs cs) :: collectAncList (anc ++ [.elem tg attrs cs]) cs
  | .text s => [(anc, .text s)]
def collectAncList (anc : List Xml) : List Xml → List (List Xml × Xml)
  | [] => []
  | x :: xs => collectAnc anc x ++ collectAncList anc xs
end

/-- The element tags of a node list (ancestor chains contain only elements). -/
def tagsOf (l : List Xml) : List String := l.filterMap Xml.tag?

/-- Is `chain` a subsequence of `anc` (in order)?  `//a//b//name` selects
`name` nodes some proper ancestor of which is `b` below some `a`. -/
def isSubchain : List String → List String → Bool
  | [], _ => true
  | _ :: _, [] => false
  | p :: ps, a :: as => if a = p then isSubchain ps as else isSubchain (p :: ps) as

/-- `//c₁//…//cₖ//name` from `root` (with an extra attribute filter `tOk` on
the selected element), as a list of element nodes in document order. -/
def descElemQ (root : Xml) (chain : List String) (name : String) (tOk : Xml → Bool) :
    List Xml :=
  (collectAnc [] root).filterMap (fun p =>
    match p.2 with
    | .elem tg attrs cs =>
      if tg = name ∧ tOk (.elem tg attrs cs) = true ∧ isSubchain chain (tagsOf p.1) = true then
        some (.elem tg attrs cs)
      else none
    | .text _ => none)

/-- Selector for `descTextQ`: keep a text node when its parent element has
the selected tag, passes the attribute filter, and its remaining proper
ancestors contain the chain as a subsequence. -/
def textSel (chain : List String) (name : String) (tOk : Xml → Bool)
    (p : List Xml × Xml) : Option String :=
  match p.2 with
  | .text s =>
    match p.1.getLast? with
    | some par =>
      if par.tag? = some name ∧ tOk par = true ∧
          isSubchain chain (tagsOf p.1.dropLast) = true then some s
      else none
    | none => none
  | .elem _ _ _ => none

/-- `//c₁//…//cₖ//name[...]/text()` from `root`: the text nodes whose parent
element matches, in document order of the text nodes (as lxml returns them). -/
def descTextQ (root : Xml) (chain : List String) (name : String) (tOk : Xml → Bool) :
    List String :=
  (collectAnc [] root).filterMap (textSel chain name tOk)

/-- `//c₁//…//cₖ//name/@attr` from `root`, in document order. -/
def descAttrQ (root : Xml) (chain : List String) (name : String) (attr : String) :
    List String :=
  (descElemQ root chain name (fun _ => true)).filterMap (Xml.attr? attr)

/-- Attribute filter `[@type="v"]`. -/
def typeIs (v : String) (x : Xml) : Bool := x.attr? "type" = some v

/-- No attribute filter. -/
def anyElem (_ : Xml) : Bool := true

/-- Direct children elements with a given tag (`./name`). -/
def childElemsNamed (x : Xml) (name : String) : List Xml :=
  x.childNodes.filter (fun c => c.tag? = some name)

/-- `./name/text()` relative to a line item, in document order. -/
def liTexts (li : Xml) (name : String) : List String :=
  (childElemsNamed li name).flatMap Xml.textChildren

/-- `./name/@attr` relative to a line item. -/
def liAttr (li : Xml) (name attr : String) : List String :=
  (childElemsNamed li name).filterMap (Xml.attr? attr)

/-- `./lineItemDetails/lineItemDetail[@type=t]/text()` relative to a line item. -/
def liDetailTexts (li : Xml) (t : String) : List String :=
  ((childElemsNamed li "lineItemDetails").flatMap
    (fun d => (childElemsNamed d "lineItemDetail").filter (typeIs t))).flatMap
    Xml.textChildren

/-! ## The output sheet -/

/-- The output worksheet, as a journal of `(row, column, value)` writes,
most recent first. -/
abbrev Sheet := List (Nat × Nat × String)

/-- `xl_sheet.cell(row=r, column=c).value = v`. -/
def setCell (s : Sheet) (r c : Nat) (v : String) : Sheet := (r, c, v) :: s

/-- Read back a cell: the most recent write, if any. -/
def getCell (s : Sheet) (r c : Nat) : Option String :=
  (s.find? (fun e => e.1 = r ∧ e.2.1 = c)).map (fun e => e.2.2)

/-- One packed output column: a scalar (repeated on every row of the message)
or a per-line-item list, mirroring the `isinstance(cur_val, list)` dispatch. -/
inductive ColVal where
  | scalar (v : String)
  | perLine (l : List String)
deriving DecidableEq

/-- The value written for a column at record index `recNum`
(`cur_val[cur_record_num] if cur_record_num < len(cur_val) else ""`;
`str(v)` on strings is the identity). -/
def colValue (v : ColVal) (recNum : Nat) : String :=
  match v with
  | .scalar sv => sv
  | .perLine l => l.getD recNum ""

/-- The inner column loop (`for col in range(len(data))`): write one row. -/
def writeCols : List ColVal → Nat → Nat → Nat → Sheet → Sheet
  | [], _, _, _, sheet => sheet
  | v :: rest, colIdx, recNum, row, sheet =>
    writeCols rest (colIdx + 1) recNum row (setCell sheet row (colIdx + 1) (colValue v recNum))

/-- The outer record loop (`for cur_record_num in range(no_line_items)`),
with `k` records left to write; returns the sheet and the final
`current_row`. -/
def writeRecs (data : List ColVal) : Nat → Nat → Nat → Sheet → Sheet × Nat
  | 0, _, row, sheet => (sheet, row)
  | k + 1, recNum, row, sheet =>
    writeRecs data k (recNum + 1) (row + 1) (writeCols data 0 recNum row sheet)

/-! ## The field extractor (`process_xml_and_populate_xl_sheet`, lines 51-158) -/

/-- `root.xpath('//purchaseOrder//lineItems//lineItem')`. -/
def lineItemsOf (root : Xml) : List Xml :=
  descElemQ root ["purchaseOrder", "lineItems"] "lineItem" anyElem

/-- `get_data('./@sequenceNumber')`: `" ".join(li.xpath(...))` per line item. -/
def seqsRaw (root : Xml) : List String :=
  (lineItemsOf root).map (fun li => " ".intercalate (li.attr? "sequenceNumber").toList)

/-- The `POLINESEQNRS` for-loop: normalize entries until the first exception. -/
def mapNormSeq : List String → Except PyErr (List String)
  | [] => .ok []
  | s :: rest => do
    let v ← normSeqEntry s
    let vs ← mapNormSeq rest
    .ok (v :: vs)

/-- The 20 packed columns (`data`, `app.py` lines 136-142), computed from the
parsed tree and the already-computed `POLINESEQNRS` (the only field whose
computation can raise). -/
def buildData (root : Xml) (POLINESEQNRS : List String) : List ColVal :=
  let LINE_ITEMS := lineItemsOf root
  let PUSB := (descAttrQ root [] "purchaseOrder" "PUSB").headD ""
  let PO_NUMBER := (descAttrQ root [] "purchaseOrder" "orderNumber").headD ""
  let SOS := (descTextQ root ["purchaseOrder", "header"] "SoS" anyElem).headD ""
  let CUSTPROFCODE0 :=
    (descTextQ root ["purchaseOrder", "header"] "customerProfileCode" anyElem).headD ""
  let CUSTPROFCODE := if CUSTPROFCODE0 ≠ "" then "STC " ++ CUSTPROFCODE0 else CUSTPROFCODE0
  let ITRANSPROUTECODE :=
    (descTextQ root ["purchaseOrder", "header"] "internationalTransportationRouteCode"
      anyElem).headD ""
  let po_create_raw :=
    (descTextQ root ["purchaseOrder", "header"] "purchaseOrderCreationDate" anyElem).headD ""
  let POCREATEDATE := poCreateDateOf po_create_raw
  let MMMPRODID := LINE_ITEMS.map (fun li => " ".intercalate (liTexts li "productIdentifier"))
  let ORDERQTY := LINE_ITEMS.map (fun li => " ".intercalate (liTexts li "orderQuantity"))
  let SELLINGUNIT := LINE_ITEMS.map (fun li => " ".intercalate (liTexts li "sellingUnit"))
  let SUPPLY_CHAIN_UNIT := SELLINGUNIT
  let PRODUCT_DESCRIPTION :=
    LINE_ITEMS.map (fun li => " ".intercalate (liDetailTexts li "purchaseritemdescription"))
  let SPECIAL_HANDLING :=
    LINE_ITEMS.map (fun li => " ".intercalate (liDetailTexts li "specialhandlingcode"))
  let no_line_items := POLINESEQNRS.length
  let LINE_INSTRUCTION := List.replicate no_line_items ""
  let ADDRESS := "; ".intercalate
    (descTextQ root ["purchaseOrder", "header", "purchaseOrderDetails"] "purchaseOrderDetail"
      (typeIs "shiptoaddress")).reverse
  let EXPORT_MARKS := List.replicate no_line_items ""
  let ORDER_INSTRUCTION0 := String.join
    (descTextQ root ["purchaseOrder", "header", "specialInstructions"] "specialInstruction"
      (typeIs "AH"))
  let ORDER_INSTRUCTION := if ORDER_INSTRUCTION0 ≠ "" then "C" ++ ORDER_INSTRUCTION0 else "null"
  let EXPC_SHIP_TYPE_CODE :=
    LINE_ITEMS.map (fun li => " ".intercalate (liAttr li "requestedShipmentDate" "type"))
  let EXPC_SHIP_DATE :=
    (LINE_ITEMS.map (fun li => " ".intercalate (liTexts li "requestedShipmentDate"))).map
      expcShipDate
  let SAP_PO_NUMBER :=
    (LINE_ITEMS.map (fun li => " ".intercalate (liTexts li "purchasingCompanyReferenceNumber"))).map
      (fun po_number => if po_number = "" then "null" else po_number)
  [.scalar PUSB, .scalar PO_NUMBER, .scalar SOS, .scalar CUSTPROFCODE,
   .scalar ITRANSPROUTECODE, .scalar POCREATEDATE, .perLine POLINESEQNRS,
   .perLine MMMPRODID, .perLine ORDERQTY, .perLine SELLINGUNIT,
   .perLine SUPPLY_CHAIN_UNIT, .perLine PRODUCT_DESCRIPTION, .perLine SPECIAL_HANDLING,
   .perLine LINE_INSTRUCTION, .scalar ADDRESS, .perLine EXPORT_MARKS,
   .scalar ORDER_INSTRUCTION, .perLine EXPC_SHIP_TYPE_CODE, .perLine EXPC_SHIP_DATE,
   .perLine SAP_PO_NUMBER]

/-- The body of `process_xml_and_populate_xl_sheet` after the parse
(`app.py` lines 56-158): compute the fields (the `POLINESEQNRS` loop may
raise), then write one row per line item (`no_line_items = len(POLINESEQNRS)`)
and return the next free row. -/
def process_xml_body (root : Xml) (xl_sheet : Sheet) (current_row : Nat) :
    Except PyErr (Sheet × Nat) := do
  let POLINESEQNRS ← mapNormSeq (seqsRaw root)
  .ok (writeRecs (buildData root POLINESEQNRS) POLINESEQNRS.length 0 current_row xl_sheet)

/-- `process_xml_and_populate_xl_sheet` (`app.py` lines 51-158):
`etree.fromstring` (the `parse` parameter), then the field extraction and
row writing.  No caller catches exceptions raised here. -/
def process_xml_and_populate_xl_sheet (parse : String → Except PyErr Xml)
    (xml_content : String) (xl_sheet : Sheet) (current_row : Nat) :
    Except PyErr (Sheet × Nat) := do
  let root ← parse xml_content
  process_xml_body root xl_sheet current_row

/-! ## The message scanner (`process_excel`, `app.py` lines 161-253)

File I/O is external; the scanner is embedded as a function of the extracted
first-column cell values (`colA`) and of the `parse` stand-in for lxml.
The state carries the output sheet, the output-row cursor and — as pure
instrumentation — the journal of chunks passed to `_extract_messages`
(`calls`) and of messages passed to the per-message extractor (`msgs`). -/

def MAX_PARTS : Nat := 1000
def MAX_XML_BYTES : Nat := 8 * 1024 * 1024

structure ScanState where
  sheet : Sheet
  currentRow : Nat
  calls : List String
  msgs : List String
deriving DecidableEq, Repr

/-- Outcome of one iteration of the outer `while i < n` loop: continue at a
new input index, or abort with an uncaught exception. -/
inductive StepOut where
  | next (i : Nat) (st : ScanState)
  | failed (e : PyErr)
deriving DecidableEq, Repr

/-- `for msg in messages: current_row = process_xml_and_populate_xl_sheet(...)`
(`app.py` lines 206-207 and 242-243) — NOT wrapped in `try`, so an exception
propagates. -/
def processMessages (parse : String → Except PyErr Xml) :
    List String → Sheet → Nat → Except PyErr (Sheet × Nat)
  | [], sheet, row => .ok (sheet, row)
  | m :: ms, sheet, row => do
    let r ← process_xml_and_populate_xl_sheet parse m sheet row
    processMessages parse ms r.1 r.2

/-- The inner accumulation loop (`app.py` lines 214-219) with its exact fuel
`n - j`:
`while j < n and not CLOSE_TAG_RE.search(colA[j] or ""): parts.append(...);`
`if len(parts) > MAX_PARTS: break;` `j += 1`.
Fuel `n - j` is exact: it reaches 0 exactly when `j ≥ n`, where the loop
guard is false and the result is `(parts, j)` either way. -/
def accAux (colA : List String) (n : Nat) : Nat → List String → Nat → List String × Nat
  | 0, parts, j => (parts, j)
  | fuel + 1, parts, j =>
    if j < n ∧ hasCloseTag (colA.getD j "") = false then
      let parts2 := parts ++ [colA.getD j ""]
      if parts2.length > MAX_PARTS then (parts2, j)
      else accAux colA n fuel parts2 (j + 1)
    else (parts, j)

def accumulate (colA : List String) (n : Nat) (parts : List String) (j : Nat) :
    List String × Nat :=
  accAux colA n (n - j) parts j

/-- One iteration of the outer scanner loop at input index `i`
(`app.py` lines 188-247). -/
def scanStep (parse : String → Except PyErr Xml) (colA : List String) (i : Nat)
    (st : ScanState) : StepOut :=
  let n := colA.length
  let cell := colA.getD i ""
  let has_open := hasOpenTag cell
  let has_close := hasCloseTag cell
  if has_open || containsXmlDecl cell then
    if has_open && has_close then
      -- fast path: the entire message is within the same cell
      if cell.utf8ByteSize > MAX_XML_BYTES then .next (i + 1) st
      else
        match extract_messages cell with
        | .error _ => .next (i + 1) { st with calls := st.calls ++ [cell] }
        | .ok messages =>
          match processMessages parse messages st.sheet st.currentRow with
          | .error e => .failed e
          | .ok (sheet2, row2) =>
            .next (i + 1)
              { sheet := sheet2, currentRow := row2,
                calls := st.calls ++ [cell], msgs := st.msgs ++ messages }
    else
      -- multi-row path: scan forward for the closing tag
      let acc := accumulate colA n [cell] (i + 1)
      let parts := acc.1
      let j := acc.2
      if j ≥ n then .next (i + 1) st
      else
        let parts2 := parts ++ [colA.getD j ""]
        let raw_xml := String.join parts2
        if raw_xml.utf8ByteSize > MAX_XML_BYTES then .next (j + 1) st
        else
          match extract_messages raw_xml with
          | .error _ => .next (j + 1) { st with calls := st.calls ++ [raw_xml] }
          | .ok messages =>
            match processMessages parse messages st.sheet st.currentRow with
            | .error e => .failed e
            | .ok (sheet2, row2) =>
              .next (j + 1)
                { sheet := sheet2, currentRow := row2,
                  calls := st.calls ++ [raw_xml], msgs := st.msgs ++ messages }
  else .next (i + 1) st

/-- The outer `while i < n` loop.  `fuel` bounds the number of iterations;
every iteration strictly increases `i` (`scanStep_next_gt` below), so
`colA.length` iterations always suffice and `scanAux_fuel_succ` shows the
result is fuel-independent from that point on. -/
def scanAux (parse : String → Except PyErr Xml) (colA : List String) :
    Nat → Nat → ScanState → Except PyErr ScanState
  | 0, _, st => .ok st
  | fuel + 1, i, st =>
    if i < colA.length then
      match scanStep parse colA i st with
      | .failed e => .error e
      | .next i2 st2 => scanAux parse colA fuel i2 st2
    else .ok st

/-- The fixed output header row (`app.py` lines 172-183). -/
def headersList : List String :=
  ["PUSB", "PO_NUMBER", "SOS", "CUSTPROFCODE", "ITRANSPROUTECODE", "POCREATEDATE",
   "POLINESEQNR", "MMMPRODID", "ORDERQTY", "SELLINGUNIT", "SUPPLY CHAIN UNIT",
   "PRODUCT DESCRIPTION", "SPECIAL HANDLING", "LINE INSTRUCTION", "ADDRESS",
   "EXPORT MARKS", "ORDER INSTRUCTION", "EXPC SHIP TYPE CODE", "EXPC SHIP DATE",
   "SAP PO NUMBER"]

/-- `for col, val in enumerate(headers, start=1): ws_out.cell(1, col) = val`. -/
def writeHeader : List String → Nat → Sheet → Sheet
  | [], _, sheet => sheet
  | v :: rest, col, sheet => writeHeader rest (col + 1) (setCell sheet 1 col v)

/-- The initial scanner state: header row written at row 1, data starts at
row 2, no extraction calls yet. -/
def initState : ScanState :=
  { sheet := writeHeader headersList 1 [], currentRow := 2, calls := [], msgs := [] }

/-- The core of `process_excel` on the extracted column values. -/
def process_excel (parse : String → Except PyErr Xml) (colA : List String) :
    Except PyErr ScanState :=
  scanAux parse colA colA.length 0 initState

/-- A stub parser that accepts anything, returning an empty message element
(zero line items, so processing a message is a no-op on the sheet). -/
def parseK : String → Except PyErr Xml := fun _ => .ok (Xml.elem "intercompanyMessage" [] [])

/-- An opening tag followed by 1001 empty cells and no closing tag anywhere:
the accumulation hits the 1000-part cap. -/
def rowsC1 : List String := "<intercompanymessage>" :: List.replicate 1001 ""

/-! ## Scanner loop lemmas -/

/-- `accumulate` satisfies the defining equation of the source's `while`
loop (the fuel `n - j` is exact). -/
theorem accumulate_eq (colA : List String) (n : Nat) (parts : List String) (j : Nat) :
    accumulate colA n parts j =
      if j < n ∧ hasCloseTag (colA.getD j "") = false then
        (if (parts ++ [colA.getD j ""]).length > MAX_PARTS then (parts ++ [colA.getD j ""], j)
         else accumulate colA n (parts ++ [colA.getD j ""]) (j + 1))
      else (parts, j) := by
  unfold accumulate
  by_cases hj : j < n
  · have h1 : n - j = (n - (j + 1)) + 1 := by omega
    rw [h1]
    rfl
  · have h0 : n - j = 0 := by omega
    rw [h0]
    have : ¬ (j < n ∧ hasCloseTag (colA.getD j "") = false) := fun h => hj h.1
    rw [if_neg this]
    rfl

/-- The accumulation loop never moves the forward index backwards. -/
theorem accumulate_snd_ge (colA : List String) (n : Nat) :
    ∀ (fuel : Nat) (parts : List String) (j : Nat), j ≤ (accAux colA n fuel parts j).2 := by
  intro fuel
  induction fuel with
  | zero => intro parts j; exact Nat.le_refl j
  | succ fuel ih =>
    intro parts j
    show j ≤ (accAux colA n (fuel + 1) parts j).2
    unfold accAux
    by_cases h : j < n ∧ hasCloseTag (colA.getD j "") = false
    · rw [if_pos h]
      dsimp only
      by_cases h2 : (parts ++ [colA.getD j ""]).length > MAX_PARTS
      · rw [if_pos h2]
      · rw [if_neg h2]
        exact Nat.le_trans (Nat.le_succ j) (ih _ (j + 1))
    · rw [if_neg h]

/-- Running the accumulation over `m` closing-tag-free cells that end at the
row boundary or at a cell with a closing tag, without reaching the part cap:
all `m` cells are appended and the index stops at `j + m`. -/
theorem accumulate_no_break (colA : List String) (n : Nat) :
    ∀ (m j : Nat) (parts : List String),
      (∀ t, t < m → hasCloseTag (colA.getD (j + t) "") = false) →
      j + m ≤ n →
      (j + m = n ∨ hasCloseTag (colA.getD (j + m) "") = true) →
      parts.length + m ≤ MAX_PARTS →
      accumulate colA n parts j =
        (parts ++ (List.range m).map (fun t => colA.getD (j + t) ""), j + m) := by
  intro m
  induction m with
  | zero =>
    intro j parts _ _ h3 _
    rw [accumulate_eq]
    have hcond : ¬ (j < n ∧ hasCloseTag (colA.getD j "") = false) := by
      intro hc
      rcases h3 with h | h
      · exact absurd hc.1 (by omega)
      · have hct : hasCloseTag (colA.getD j "") = true := by simpa using h
        rw [hct] at hc
        exact Bool.noConfusion hc.2
    rw [if_neg hcond]
    simp
  | succ m ih =>
    intro j parts h1 h2 h3 h4
    rw [accumulate_eq]
    have hj : j < n := by omega
    have hc : hasCloseTag (colA.getD j "") = false := by
      have := h1 0 (Nat.succ_pos m)
      simpa using this
    rw [if_pos ⟨hj, hc⟩]
    have hlen : ¬ (parts ++ [colA.getD j ""]).length > MAX_PARTS := by
      simp only [List.length_append, List.length_cons, List.length_nil]
      omega
    rw [if_neg hlen]
    rw [ih (j + 1) (parts ++ [colA.getD j ""])
      (fun t ht => by
        have h' : j + 1 + t = j + (t + 1) := by omega
        rw [h']
        exact h1 (t + 1) (by omega))
      (by omega)
      (by rcases h3 with h | h
          · exact Or.inl (by omega)
          · exact Or.inr (by rw [show j + 1 + m = j + (m + 1) by omega]; exact h))
      (by simp only [List.length_append, List.length_cons, List.length_nil]; omega)]
    have hlist : (List.range (m + 1)).map (fun t => colA.getD (j + t) "") =
        colA.getD j "" :: (List.range m).map (fun t => colA.getD (j + 1 + t) "") := by
      rw [List.range_succ_eq_map, List.map_cons, List.map_map]
      congr 1
      exact List.map_congr_left (fun a _ => by
        show colA.getD (j + (a + 1)) "" = colA.getD (j + 1 + a) ""
        have h' : j + (a + 1) = j + 1 + a := by omega
        rw [h'])
    rw [List.append_assoc, hlist]
    have harith : j + 1 + m = j + (m + 1) := by omega
    rw [harith, List.singleton_append]

/-- Running the accumulation over `m + 1` closing-tag-free cells that make the
part count exceed `MAX_PARTS`: the loop `break`s after appending the
`(m+1)`-st cell, leaving the index at the cell just appended. -/
theorem accumulate_break (colA : List String) (n : Nat) :
    ∀ (m j : Nat) (parts : List String),
      (∀ t, t ≤ m → hasCloseTag (colA.getD (j + t) "") = false) →
      j + m < n →
      parts.length + m = MAX_PARTS →
      accumulate colA n parts j =
        (parts ++ (List.range (m + 1)).map (fun t => colA.getD (j + t) ""), j + m) := by
  intro m
  induction m with
  | zero =>
    intro j parts h1 h2 h3
    rw [accumulate_eq]
    have hc : hasCloseTag (colA.getD j "") = false := by
      have := h1 0 (Nat.le_refl 0)
      simpa using this
    rw [if_pos ⟨by omega, hc⟩]
    have hlen : (parts ++ [colA.getD j ""]).length > MAX_PARTS := by
      simp only [List.length_append, List.length_cons, List.length_nil]
      omega
    rw [if_pos hlen]
    simp [List.range_succ]
  | succ m ih =>
    intro j parts h1 h2 h3
    rw [accumulate_eq]
    have hc : hasCloseTag (colA.getD j "") = false := by
      have := h1 0 (Nat.zero_le _)
      simpa using this
    rw [if_pos ⟨by omega, hc⟩]
    have hlen : ¬ (parts ++ [colA.getD j ""]).length > MAX_PARTS := by
      simp only [List.length_append, List.length_cons, List.length_nil]
      omega
    rw [if_neg hlen]
    rw [ih (j + 1) (parts ++ [colA.getD j ""])
      (fun t ht => by
        have h' : j + 1 + t = j + (t + 1) := by omega
        rw [h']
        exact h1 (t + 1) (by omega))
      (by omega)
      (by simp only [List.length_append, List.length_cons, List.length_nil]; omega)]
    have hlist : (List.range (m + 1 + 1)).map (fun t => colA.getD (j + t) "") =
        colA.getD j "" :: (List.range (m + 1)).map (fun t => colA.getD (j + 1 + t) "") := by
      rw [List.range_succ_eq_map, List.map_cons, List.map_map]
      congr 1
      exact List.map_congr_left (fun a _ => by
        show colA.getD (j + (a + 1)) "" = colA.getD (j + 1 + a) ""
        have h' : j + (a + 1) = j + 1 + a := by omega
        rw [h'])
    rw [List.append_assoc, hlist]
    have harith : j + 1 + m = j + (m + 1) := by omega
    rw [harith, List.singleton_append]

theorem accumulate_ge (colA : List String) (n : Nat) (parts : List String) (j : Nat) :
    j ≤ (accumulate colA n parts j).2 :=
  accumulate_snd_ge colA n (n - j) parts j

/-- Every continuing iteration of the scanner loop strictly increases the
input cursor: by `1` on the skip, no-indicator and single-cell paths, and to
`j + 1 ≥ i + 2` when a multi-row chunk was bounded at `j`. -/
theorem scanStep_next_gt (parse : String → Except PyErr Xml) (colA : List String)
    (i : Nat) (st : ScanState) (i2 : Nat) (st2 : ScanState)
    (h : scanStep parse colA i st = .next i2 st2) : i < i2 := by
  have hge := accumulate_ge colA colA.length [colA.getD i ""] (i + 1)
  unfold scanStep at h
  dsimp only at h
  split at h
  · split at h
    · split at h
      · cases h; omega
      · split at h
        · cases h; omega
        · split at h
          · cases h
          · cases h; omega
    · split at h
      · cases h; omega
      · split at h
        · cases h; omega
        · split at h
          · cases h; omega
          · split at h
            · cases h
            · cases h; omega
  · cases h; omega

theorem scanAux_done (parse : String → Except PyErr Xml) (colA : List String)
    (fuel i : Nat) (st : ScanState) (h : ¬ i < colA.length) :
    scanAux parse colA fuel i st = .ok st := by
  cases fuel with
  | zero => rfl
  | succ fuel => simp [scanAux, h]

theorem scanAux_step (parse : String → Except PyErr Xml) (colA : List String)
    (fuel i : Nat) (st : ScanState) (i2 : Nat) (st2 : ScanState)
    (hi : i < colA.length) (hs : scanStep parse colA i st = .next i2 st2) :
    scanAux parse colA (fuel + 1) i st = scanAux parse colA fuel i2 st2 := by
  simp [scanAux, hi, hs]

theorem scanAux_failed (parse : String → Except PyErr Xml) (colA : List String)
    (fuel i : Nat) (st : ScanState) (e : PyErr)
    (hi : i < colA.length) (hs : scanStep parse colA i st = .failed e) :
    scanAux parse colA (fuel + 1) i st = .error e := by
  simp [scanAux, hi, hs]

/-- Above the bound `colA.length - i`, the loop fuel is irrelevant: the
fuel-indexed loop is the source's unbounded `while` loop. -/
theorem scanAux_fuel_succ (parse : String → Except PyErr Xml) (colA : List String) :
    ∀ (fuel i : Nat) (st : ScanState), colA.length - i ≤ fuel →
      scanAux parse colA (fuel + 1) i st = scanAux parse colA fuel i st := by
  intro fuel
  induction fuel with
  | zero =>
    intro i st h
    have : ¬ i < colA.length := by omega
    rw [scanAux_done parse colA 1 i st this, scanAux_done parse colA 0 i st this]
  | succ fuel ih =>
    intro i st h
    by_cases hi : i < colA.length
    · cases hs : scanStep parse colA i st with
      | failed e =>
        rw [scanAux_failed parse colA (fuel + 1) i st e hi hs,
            scanAux_failed parse colA fuel i st e hi hs]
      | next i2 st2 =>
        rw [scanAux_step parse colA (fuel + 1) i st i2 st2 hi hs,
            scanAux_step parse colA fuel i st i2 st2 hi hs]
        exact ih i2 st2 (by
          have := scanStep_next_gt parse colA i st i2 st2 hs
          omega)
    · rw [scanAux_done parse colA (fuel + 2) i st hi, scanAux_done parse colA (fuel + 1) i st hi]

/-! ## String-join helpers -/

theorem string_append_empty (s : String) : s ++ "" = s :=
  String.ext (by simp)

theorem string_empty_append (s : String) : "" ++ s = s :=
  String.ext (by simp)

theorem string_append_assoc (a b c : String) : a ++ b ++ c = a ++ (b ++ c) :=
  String.ext (by simp)

theorem foldl_append_init (l : List String) :
    ∀ s : String, l.foldl (· ++ ·) s = s ++ l.foldl (· ++ ·) "" := by
  induction l with
  | nil => intro s; simp [List.foldl, string_append_empty]
  | cons a l ih =>
    intro s
    simp only [List.foldl]
    rw [ih (s ++ a), ih ("" ++ a), string_empty_append, string_append_assoc]

theorem join_cons (a : String) (l : List String) :
    String.join (a :: l) = a ++ String.join l := by
  show (a :: l).foldl (· ++ ·) "" = a ++ l.foldl (· ++ ·) ""
  simp only [List.foldl]
  rw [foldl_append_init, string_empty_append]

theorem join_append (l1 l2 : List String) :
    String.join (l1 ++ l2) = String.join l1 ++ String.join l2 := by
  induction l1 with
  | nil =>
    show String.join l2 = String.join [] ++ String.join l2
    rw [show String.join [] = "" from rfl, string_empty_append]
  | cons a l ih =>
    rw [List.cons_append, join_cons, join_cons, ih, string_append_assoc]

theorem join_replicate_empty : ∀ n : Nat, String.join (List.replicate n "") = ""
  | 0 => rfl
  | n + 1 => by
    rw [List.replicate_succ, join_cons, join_replicate_empty n, string_append_empty]

/-! ## Step-level characterizations of the scanner -/

/-- A row with no opening indicator: the scanner just advances the input
cursor by one, with the state (sheet, output cursor, extraction journals)
unchanged. -/
theorem scanStep_skip (parse : String → Except PyErr Xml) (colA : List String)
    (i : Nat) (st : ScanState)
    (h1 : hasOpenTag (colA.getD i "") = false)
    (h2 : containsXmlDecl (colA.getD i "") = false) :
    scanStep parse colA i st = .next (i + 1) st := by
  unfold scanStep
  dsimp only
  rw [h1, h2]
  rfl

/-- The raw chunk assembled on the part-cap break path: the opening cell,
the `m + 1` appended cells, and the cell at the break index appended a
second time. -/
def breakChunk (colA : List String) (i m : Nat) : String :=
  String.join (([colA.getD i ""] ++ (List.range (m + 1)).map (fun t => colA.getD (i + 1 + t) "")) ++
    [colA.getD (i + 1 + m) ""])

/-- The part-cap break path of the multi-row branch: after the `break`, the
code falls through, appends the current cell a second time, joins, and calls
`_extract_messages` on the partial chunk; when that call raises, scanning
resumes at `j + 1 = i + m + 2` (not `i + 1`). -/
theorem scanStep_break (parse : String → Except PyErr Xml) (colA : List String)
    (i : Nat) (st : ScanState) (m : Nat) (e : PyErr)
    (hopen : hasOpenTag (colA.getD i "") = true)
    (hnc : hasCloseTag (colA.getD i "") = false)
    (hfree : ∀ t, t ≤ m → hasCloseTag (colA.getD (i + 1 + t) "") = false)
    (hm : 1 + m = MAX_PARTS)
    (hlt : i + 1 + m < colA.length)
    (hsize : ¬ (breakChunk colA i m).utf8ByteSize > MAX_XML_BYTES)
    (hex : extract_messages (breakChunk colA i m) = .error e) :
    scanStep parse colA i st =
      .next (i + 1 + m + 1) { st with calls := st.calls ++ [breakChunk colA i m] } := by
  unfold scanStep
  dsimp only
  rw [hopen, hnc]
  simp only [Bool.true_or, Bool.true_and, if_true, if_false]
  have hacc := accumulate_break colA colA.length m (i + 1) [colA.getD i ""]
    hfree (by omega)
    (by simp only [List.length_cons, List.length_nil]; omega)
  rw [hacc]
  dsimp only
  rw [if_neg (by omega : ¬ i + 1 + m ≥ colA.length)]
  unfold breakChunk at hsize hex
  rw [if_neg hsize, hex]
  simp only [Bool.false_eq_true, if_false]
  rfl

/-! ## The part-cap input (claim C1)

1002 rows: an opening cell followed by 1001 empty cells.  The accumulation
appends 1000 parts (1001 with the opening cell), exceeds `MAX_PARTS`, breaks
at `j = 1000`, and the code then appends the cell at `j` again and calls
`_extract_messages` on the partial chunk. -/

theorem rowsC1_length : rowsC1.length = 1002 := by
  show ("<intercompanymessage>" :: List.replicate 1001 "").length = 1002
  rw [List.length_cons, List.length_replicate]

theorem replicate_getD_empty : ∀ (k t : Nat), (List.replicate k ("" : String)).getD t "" = "" := by
  intro k
  induction k with
  | zero => intro t; cases t <;> rfl
  | succ k ih =>
    intro t
    cases t with
    | zero => rw [List.replicate_succ]; rfl
    | succ t => rw [List.replicate_succ, List.getD_cons_succ]; exact ih t

theorem rowsC1_getD_succ (t : Nat) : rowsC1.getD (1 + t) "" = "" := by
  show (("<intercompanymessage>" :: List.replicate 1001 "").getD (1 + t) "") = ""
  rw [show 1 + t = t + 1 by omega, List.getD_cons_succ]
  exact replicate_getD_empty 1001 t

theorem breakChunk_rowsC1 : breakChunk rowsC1 0 999 = "<intercompanymessage>" := by
  unfold breakChunk
  have h1 : (List.range (999 + 1)).map (fun t => rowsC1.getD (0 + 1 + t) "") =
      List.replicate 1000 "" := by
    have h2 : (List.range 1000).map (fun t => rowsC1.getD (0 + 1 + t) "") =
        (List.range 1000).map (fun _ => ("" : String)) :=
      List.map_congr_left (fun a _ => by
        show rowsC1.getD (0 + 1 + a) "" = ""
        rw [show 0 + 1 + a = 1 + a by omega]
        exact rowsC1_getD_succ a)
    rw [h2, List.map_const', List.length_range]
  rw [h1, show (0 + 1 + 999 : Nat) = 1 + 999 from by omega, rowsC1_getD_succ 999]
  rw [join_append, join_append, join_cons, join_replicate_empty, join_cons]
  show rowsC1.getD 0 "" ++ String.join [] ++ "" ++ ("" ++ String.join []) = "<intercompanymessage>"
  rw [show String.join [] = "" from rfl, string_append_empty, string_append_empty,
    string_empty_append, string_append_empty]
  rfl

theorem scanStep_rowsC1_0 (parse : String → Except PyErr Xml) (st : ScanState) :
    scanStep parse rowsC1 0 st =
      .next 1001 { st with calls := st.calls ++ ["<intercompanymessage>"] } := by
  have h := scanStep_break parse rowsC1 0 st 999
    (.valueError "No intercompanyMessage blocks found.")
    (by decide)
    (by decide)
    (fun t ht => by
      rw [show 0 + 1 + t = 1 + t by omega, rowsC1_getD_succ t]
      decide)
    (by decide)
    (by rw [rowsC1_length]; omega)
    (by rw [breakChunk_rowsC1]; decide)
    (by rw [breakChunk_rowsC1]; decide)
  rw [h, breakChunk_rowsC1]

/-- A parse stand-in that fails if invoked; the run below succeeding shows the
per-message extractor is never reached on this input. -/
def parseNone : String → Except PyErr Xml := fun _ => .error (.otherError "parse never reached")

theorem process_excel_rowsC1_run :
    process_excel parseNone rowsC1 = .ok { initState with calls := ["<intercompanymessage>"] } := by
  unfold process_excel
  rw [rowsC1_length]
  rw [show (1002 : Nat) = 1001 + 1 from rfl]
  rw [scanAux_step parseNone rowsC1 1001 0 initState 1001 _
    (by rw [rowsC1_length]; omega) (scanStep_rowsC1_0 parseNone initState)]
  rw [show (1001 : Nat) = 1000 + 1 from rfl]
  rw [scanAux_step parseNone rowsC1 1000 1001 _ 1002 _
    (by rw [rowsC1_length]; omega)
    (scanStep_skip parseNone rowsC1 1001 _
      (by rw [show (1001 : Nat) = 1 + 1000 from rfl, rowsC1_getD_succ 1000]; decide)
      (by rw [show (1001 : Nat) = 1 + 1000 from rfl, rowsC1_getD_succ 1000]; decide))]
  rw [scanAux_done parseNone rowsC1 1000 1002 _ (by rw [rowsC1_length]; omega)]
  rfl

/-! ## Claims C1, C8, C9 -/

/-- **C1** (code bug): on an input whose multi-row accumulation exceeds 1000
parts before any closing tag (1002 rows: an opening cell and 1001 empty
cells), the claim says the chunk is abandoned with no extraction attempt and
scanning resumes at `i + 1`.  The code instead breaks out of the inner loop
with 1001 accumulated parts (first conjunct: the part list at the break has
`MAX_PARTS + 1` entries), appends the break cell a second time, and DOES call
`_extract_messages` on the partial chunk — the run records exactly that call
in the `calls` journal — resuming at `j + 1 = 1001`, not `i + 1`. -/
theorem C1_partcap_chunk_still_extracted :
    (accumulate rowsC1 1002 ["<intercompanymessage>"] 1).1.length = MAX_PARTS + 1 ∧
    process_excel parseNone rowsC1 =
      .ok { initState with calls := ["<intercompanymessage>"] } := by
  constructor
  · have hacc := accumulate_break rowsC1 1002 999 1 ["<intercompanymessage>"]
      (fun t ht => by rw [rowsC1_getD_succ t]; decide)
      (by omega)
      (by decide)
    rw [hacc]
    simp only [List.length_append, List.length_cons, List.length_nil, List.length_map,
      List.length_range]
    decide
  · exact process_excel_rowsC1_run

/-- **C8**: a row containing no opening indicator (neither the opening
`intercompanyMessage` tag pattern nor an XML declaration) never triggers
extraction and never advances the output-row cursor: the scanner just
advances the input cursor by one, the whole scan state (sheet, output-row
cursor, extraction journals) unchanged. -/
theorem C8_no_indicator_row_skipped (parse : String → Except PyErr Xml)
    (colA : List String) (i : Nat) (st : ScanState)
    (h1 : hasOpenTag (colA.getD i "") = false)
    (h2 : containsXmlDecl (colA.getD i "") = false) :
    scanStep parse colA i st = .next (i + 1) st :=
  scanStep_skip parse colA i st h1 h2

theorem C8_witness :
    hasOpenTag "some plain text" = false ∧ containsXmlDecl "some plain text" = false ∧
    scanStep parseNone ["some plain text"] 0 initState = .next 1 initState :=
  ⟨by decide, by decide,
    C8_no_indicator_row_skipped parseNone ["some plain text"] 0 initState
      (by decide) (by decide)⟩

/-- **C9**: the scanner loop terminates on every finite input because every
continuing iteration strictly increases the input cursor (by 1 on the
skip/no-indicator/single-cell paths, and to `j + 1 ≥ i + 2` on the bounded
multi-row paths); the loop is therefore total with `colA.length` fuel
(`scanAux_fuel_succ` shows the result is fuel-independent beyond that). -/
theorem C9_cursor_strictly_increases (parse : String → Except PyErr Xml)
    (colA : List String) (i : Nat) (st : ScanState) (i2 : Nat) (st2 : ScanState)
    (h : scanStep parse colA i st = .next i2 st2) : i < i2 :=
  scanStep_next_gt parse colA i st i2 st2 h

theorem C9_witness :
    scanStep parseNone ["plain row"] 0 initState = .next 1 initState ∧ 0 < 1 :=
  ⟨by decide,
    C9_cursor_strictly_increases parseNone ["plain row"] 0 initState 1 initState (by decide)⟩

/-! ## Claim C5: sequence-number normalization -/

/-- **C5** counterexample: `"²"` (superscript two) is all-digits for Python's
`isdigit`, so the claim promises the integer re-stringification (and under an
ASCII reading of "all-digits", the unchanged value); the code instead raises
`ValueError` from `int()` and produces no output at all. -/
theorem C5_counterexample :
    pyStrIsDigit (pyStrip "²") = true ∧
    normSeqEntry "²" = .error (.valueError "invalid literal for int() with base 10: ²") ∧
    (normSeqEntry "²").isOk = false :=
  ⟨by decide, by decide, by decide⟩

/-- **C5** amended: for each `sequenceNumber` value, if the trimmed value is
non-empty and all ASCII decimal digits, the output is the integer
re-stringified (leading zeros stripped); if it passes Python's `isdigit` but
contains a non-decimal digit character, `int()` raises `ValueError` (which
nothing catches); otherwise the TRIMMED value is kept. -/
theorem C5_seqnr_normalization (s : String) (v : Nat) :
    (pyInt? (pyStrip s) = some v → normSeqEntry s = .ok (Nat.repr v)) ∧
    (pyStrIsDigit (pyStrip s) = true → pyInt? (pyStrip s) = none →
      normSeqEntry s = .error (.valueError ("invalid literal for int() with base 10: " ++ pyStrip s))) ∧
    (pyStrIsDigit (pyStrip s) = false → normSeqEntry s = .ok (pyStrip s)) := by
  refine ⟨?_, ?_, ?_⟩
  · intro h
    have hd : pyStrIsDigit (pyStrip s) = true := by
      unfold pyInt? at h
      split at h
      · rename_i hcond
        unfold pyStrIsDigit
        have h1 : decide ((pyStrip s).data ≠ []) = true := by simpa using hcond.1
        have h2 : (pyStrip s).data.all pyIsDigitChar = true :=
          List.all_eq_true.mpr (fun c hc => by
            have hdig := List.all_eq_true.mp hcond.2 c hc
            unfold pyIsDigitChar
            simp [hdig])
        rw [h1, h2]
        rfl
      · exact absurd h (by simp)
    unfold normSeqEntry
    dsimp only
    rw [hd, h]
    simp
  · intro hd hnone
    unfold normSeqEntry
    dsimp only
    rw [hd, hnone]
    simp
  · intro hd
    unfold normSeqEntry
    dsimp only
    rw [hd]
    simp

theorem C5_witness :
    normSeqEntry "007" = .ok "7" ∧ normSeqEntry " A1 " = .ok "A1" :=
  ⟨(C5_seqnr_normalization "007" 7).1 (by decide),
   (C5_seqnr_normalization " A1 " 0).2.2 (by decide)⟩

/-! ## Claim C6: date reformatting -/

theorem chVal_digitChar (k : Nat) : chVal (digitChar k) = 48 + k % 10 := by
  unfold digitChar
  rcases (show k % 10 = 0 ∨ k % 10 = 1 ∨ k % 10 = 2 ∨ k % 10 = 3 ∨ k % 10 = 4 ∨ k % 10 = 5 ∨
    k % 10 = 6 ∨ k % 10 = 7 ∨ k % 10 = 8 ∨ k % 10 = 9 from by omega) with
    h | h | h | h | h | h | h | h | h | h <;> rw [h] <;> rfl

theorem isDigit_digitChar (k : Nat) : (digitChar k).isDigit = true := by
  unfold digitChar
  rcases (show k % 10 = 0 ∨ k % 10 = 1 ∨ k % 10 = 2 ∨ k % 10 = 3 ∨ k % 10 = 4 ∨ k % 10 = 5 ∨
    k % 10 = 6 ∨ k % 10 = 7 ∨ k % 10 = 8 ∨ k % 10 = 9 from by omega) with
    h | h | h | h | h | h | h | h | h | h <;> rw [h] <;> rfl

theorem isSpaceChar_digitChar (k : Nat) : isSpaceChar (digitChar k) = false := by
  unfold digitChar
  rcases (show k % 10 = 0 ∨ k % 10 = 1 ∨ k % 10 = 2 ∨ k % 10 = 3 ∨ k % 10 = 4 ∨ k % 10 = 5 ∨
    k % 10 = 6 ∨ k % 10 = 7 ∨ k % 10 = 8 ∨ k % 10 = 9 from by omega) with
    h | h | h | h | h | h | h | h | h | h <;> rw [h] <;> rfl

theorem monthAlts_canon (m : Nat) (r : List Char) (h1 : 1 ≤ m) (h2 : m ≤ 12) :
    ∃ tail, monthAlts (digitChar (m / 10) :: digitChar m :: r) = (m, r) :: tail := by
  unfold monthAlts
  simp only [chVal_digitChar]
  have e1 : m / 10 % 10 = m / 10 := by omega
  rw [e1]
  by_cases hc : m ≤ 9
  · have e2 : m / 10 = 0 := by omega
    have e3 : m % 10 = m := by omega
    rw [e2, e3]
    rw [if_neg (by omega), if_pos (by omega), if_neg (by omega)]
    refine ⟨[], ?_⟩
    have e4 : 48 + m - 48 = m := by omega
    rw [e4]
    rfl
  · have e2 : m / 10 = 1 := by omega
    have e3 : m % 10 = m - 10 := by omega
    rw [e2, e3]
    rw [if_pos (by omega), if_neg (by omega), if_pos (by omega)]
    refine ⟨[(48 + 1 - 48, digitChar m :: r)], ?_⟩
    have e4 : 10 + (48 + (m - 10) - 48) = m := by omega
    rw [e4]
    rfl

theorem dayAlts_canon (d : Nat) (r : List Char) (h1 : 1 ≤ d) (h2 : d ≤ 31) :
    (dayAlts (digitChar (d / 10) :: digitChar d :: r)).head? = some (d, r) := by
  unfold dayAlts
  simp only [chVal_digitChar]
  have e1 : d / 10 % 10 = d / 10 := by omega
  rw [e1]
  by_cases hc : d ≤ 9
  · have e2 : d / 10 = 0 := by omega
    have e3 : d % 10 = d := by omega
    rw [e2, e3]
    rw [if_neg (by omega), if_neg (by omega), if_pos (by omega), if_neg (by omega),
      if_neg (by omega)]
    have e4 : 48 + d - 48 = d := by omega
    rw [e4]
    rfl
  · by_cases hc2 : d ≤ 29
    · have e3 : (48 + d / 10 - 48) * 10 + (48 + d % 10 - 48) = d := by omega
      rw [if_neg (by omega), if_pos (by omega), e3, if_neg (by omega), if_pos (by omega),
        if_neg (by omega)]
      rfl
    · have e2 : d / 10 = 3 := by omega
      have e3 : d % 10 = d - 30 := by omega
      rw [e2, e3]
      rw [if_pos (by omega), if_neg (by omega), if_neg (by omega), if_pos (by omega),
        if_neg (by omega)]
      have e4 : 30 + (48 + (d - 30) - 48) = d := by omega
      rw [e4]
      rfl

/-- Claim-side: the canonical `YYYY-MM-DD` rendering of a calendar date
(four-digit zero-padded year, two-digit month and day). -/
def canonYMD (y m d : Nat) : String :=
  String.mk [digitChar (y / 1000), digitChar (y / 100), digitChar (y / 10), digitChar y, '-',
    digitChar (m / 10), digitChar m, '-', digitChar (d / 10), digitChar d]

/-- Claim-side: validity of a calendar date with a four-digit year. -/
def validYMD (y m d : Nat) : Bool :=
  decide (1 ≤ y) && decide (y ≤ 9999) && decide (1 ≤ m) && decide (m ≤ 12) &&
  decide (1 ≤ d) && decide (d ≤ daysInMonth y m)

/-- Claim-side: the `DD.MM.YYYY` rendering with a four-digit year. -/
def specDMY (y m d : Nat) : String :=
  String.mk [digitChar (d / 10), digitChar d, '.', digitChar (m / 10), digitChar m, '.',
    digitChar (y / 1000), digitChar (y / 100), digitChar (y / 10), digitChar y]

/-- `strptime "%Y-%m-%d"` round-trips the canonical rendering of every valid
calendar date. -/
theorem strptimeYMD_canon (y m d : Nat) (hy1 : 1 ≤ y) (hy2 : y ≤ 9999)
    (hm1 : 1 ≤ m) (hm2 : m ≤ 12) (hd1 : 1 ≤ d) (hd2 : d ≤ daysInMonth y m) :
    strptimeYMD? (canonYMD y m d) = some (y, m, d) := by
  have hd31 : d ≤ 31 := by
    have h31 : daysInMonth y m ≤ 31 := by
      unfold daysInMonth
      split
      · split <;> omega
      · split <;> omega
    omega
  unfold canonYMD strptimeYMD?
  dsimp only
  rw [if_pos ⟨rfl, isDigit_digitChar _, isDigit_digitChar _, isDigit_digitChar _,
    isDigit_digitChar _⟩]
  have hy : (((chVal (digitChar (y / 1000)) - 48) * 10 + (chVal (digitChar (y / 100)) - 48)) * 10 +
      (chVal (digitChar (y / 10)) - 48)) * 10 + (chVal (digitChar y) - 48) = y := by
    rw [chVal_digitChar, chVal_digitChar, chVal_digitChar, chVal_digitChar]
    omega
  rw [hy]
  obtain ⟨tail, htail⟩ := monthAlts_canon m ['-', digitChar (d / 10), digitChar d] hm1 hm2
  rw [htail]
  unfold firstOk?
  have hf : (fun (mr : Nat × List Char) =>
      match mr.2 with
      | c :: rest2 =>
        if c = '-' then (dayAlts rest2).head?.map (fun dr => (mr.1, dr.1, dr.2)) else none
      | [] => none) (m, ['-', digitChar (d / 10), digitChar d]) = some (m, d, []) := by
    dsimp only
    rw [if_pos rfl, dayAlts_canon d [] hd1 hd31]
    rfl
  rw [hf]
  have hok : dateOk y m d = true := by
    unfold dateOk
    simp only [Bool.and_eq_true, decide_eq_true_eq]
    omega
  dsimp only
  rw [if_pos ⟨rfl, hok⟩]

theorem dropWhile_all_false {p : Char → Bool} :
    ∀ l : List Char, (∀ c ∈ l, p c = false) → l.dropWhile p = l
  | [], _ => rfl
  | c :: cs, h => by
    rw [List.dropWhile_cons, h c (List.mem_cons_self c cs)]
    simp

theorem pyStrip_no_space (s : String) (h : ∀ c ∈ s.data, isSpaceChar c = false) :
    pyStrip s = s := by
  unfold pyStrip
  rw [dropWhile_all_false s.data h,
    dropWhile_all_false s.data.reverse (fun c hc => h c (List.mem_reverse.mp hc)),
    List.reverse_reverse]

/-- **C6** counterexample: `"0032-01-05"` is a valid `YYYY-MM-DD` string, but
the code renders the year with glibc's unpadded `%Y`, producing `"05.01.32"`
rather than the `DD.MM.YYYY` form `"05.01.0032"` the claim promises. -/
theorem C6_counterexample :
    validYMD 32 1 5 = true ∧
    poCreateDateOf (canonYMD 32 1 5) = "05.01.32" ∧
    expcShipDate (canonYMD 32 1 5) = "05.01.32" ∧
    specDMY 32 1 5 = "05.01.0032" ∧ ("05.01.32" : String) ≠ "05.01.0032" :=
  ⟨by decide, by decide, by decide, by decide, by decide⟩

/-- **C6** amended: both date conversions (`POCREATEDATE` and
`EXPC SHIP DATE`) are total (every exception is caught and mapped to `""`);
a valid `YYYY-MM-DD` string maps to `DD.MM.Y` with two-digit day and month
and the year rendered unpadded (hence `DD.MM.YYYY` exactly when the year is
at least 1000), and every `%Y-%m-%d`-unparsable string maps to `""`. -/
theorem C6_date_reformatting :
    (∀ y m d, validYMD y m d = true →
      poCreateDateOf (canonYMD y m d) = pad2 d ++ "." ++ pad2 m ++ "." ++ Nat.repr y ∧
      expcShipDate (canonYMD y m d) = pad2 d ++ "." ++ pad2 m ++ "." ++ Nat.repr y) ∧
    (∀ s, strptimeYMD? s = none → poCreateDateOf s = "" ∧ expcShipDate s = "") := by
  constructor
  · intro y m d hv
    simp only [validYMD, Bool.and_eq_true, decide_eq_true_eq] at hv
    obtain ⟨⟨⟨⟨⟨hy1, hy2⟩, hm1⟩, hm2⟩, hd1⟩, hd2⟩ := hv
    have hs := strptimeYMD_canon y m d hy1 hy2 hm1 hm2 hd1 hd2
    have hne : canonYMD y m d ≠ "" := by
      intro h
      have h2 := congrArg (fun s => s.data.length) h
      simp [canonYMD] at h2
    have href : reformatDate (canonYMD y m d) =
        pad2 d ++ "." ++ pad2 m ++ "." ++ Nat.repr y := by
      unfold reformatDate
      rw [hs]
      rfl
    have hstrip : pyStrip (canonYMD y m d) = canonYMD y m d := by
      apply pyStrip_no_space
      intro c hc
      replace hc : c ∈ [digitChar (y / 1000), digitChar (y / 100), digitChar (y / 10),
        digitChar y, '-', digitChar (m / 10), digitChar m, '-', digitChar (d / 10),
        digitChar d] := hc
      simp only [List.mem_cons, List.not_mem_nil, or_false] at hc
      rcases hc with h | h | h | h | h | h | h | h | h | h <;> subst h <;>
        first
        | exact isSpaceChar_digitChar _
        | decide
    constructor
    · unfold poCreateDateOf
      rw [if_pos hne, href]
    · unfold expcShipDate
      have hNone : canonYMD y m d ≠ "None" := by
        intro h
        have h2 := congrArg (fun s => s.data.length) h
        simp [canonYMD] at h2
      rw [if_pos (by rw [hstrip]; exact fun hor => hor.elim hNone hne), href]
  · intro s hs
    constructor
    · unfold poCreateDateOf
      by_cases h : s = ""
      · rw [if_neg (not_not_intro h)]
      · rw [if_pos h]
        unfold reformatDate
        rw [hs]
    · unfold expcShipDate
      by_cases h : pyStrip s = "None" ∨ pyStrip s = ""
      · rw [if_neg (not_not_intro h)]
      · rw [if_pos h]
        unfold reformatDate
        rw [hs]

theorem C6_witness :
    poCreateDateOf "2024-03-07" = "07.03.2024" ∧
    expcShipDate "2024-03-07" = "07.03.2024" := by
  have hc : ("2024-03-07" : String) = canonYMD 2024 3 7 := by decide
  constructor
  · rw [hc, (C6_date_reformatting.1 2024 3 7 (by decide)).1]
    decide
  · rw [hc, (C6_date_reformatting.1 2024 3 7 (by decide)).2]
    decide

/-! ## Cell-level characterization of the write loops -/

theorem getCell_setCell (s : Sheet) (r c : Nat) (v : String) (a b : Nat) :
    getCell (setCell s r c v) a b = if a = r ∧ b = c then some v else getCell s a b := by
  unfold getCell setCell
  by_cases h : a = r ∧ b = c
  · rw [if_pos h, List.find?_cons_of_pos _ (by simp [h.1, h.2])]
    rfl
  · rw [if_neg h, List.find?_cons_of_neg _ (by
      simp only [decide_eq_true_eq, not_and]
      exact fun h1 h2 => h ⟨h1.symm, h2.symm⟩)]

theorem getCell_writeCols :
    ∀ (data : List ColVal) (colIdx recNum row : Nat) (sheet : Sheet) (a b : Nat),
      getCell (writeCols data colIdx recNum row sheet) a b =
        if a = row ∧ colIdx + 1 ≤ b ∧ b ≤ colIdx + data.length then
          some (colValue (data.getD (b - (colIdx + 1)) (.scalar "")) recNum)
        else getCell sheet a b := by
  intro data
  induction data with
  | nil =>
    intro colIdx recNum row sheet a b
    rw [if_neg (by rintro ⟨_, h1, h2⟩; simp at h2; omega)]
    rfl
  | cons v rest ih =>
    intro colIdx recNum row sheet a b
    show getCell (writeCols rest (colIdx + 1) recNum row
      (setCell sheet row (colIdx + 1) (colValue v recNum))) a b = _
    rw [ih, getCell_setCell]
    by_cases h : a = row ∧ colIdx + 1 + 1 ≤ b ∧ b ≤ colIdx + 1 + rest.length
    · rw [if_pos h, if_pos (by
        refine ⟨h.1, by omega, ?_⟩
        simp only [List.length_cons]
        omega)]
      have e1 : b - (colIdx + 1) = (b - (colIdx + 1 + 1)) + 1 := by omega
      rw [e1, List.getD_cons_succ]
    · rw [if_neg h]
      by_cases h2 : a = row ∧ b = colIdx + 1
      · rw [if_pos h2, if_pos (by
          refine ⟨h2.1, by omega, ?_⟩
          simp only [List.length_cons]
          omega)]
        have e1 : b - (colIdx + 1) = 0 := by omega
        rw [e1]
        rfl
      · rw [if_neg h2, if_neg (by
          rintro ⟨ha, hb1, hb2⟩
          simp only [List.length_cons] at hb2
          by_cases hb : b = colIdx + 1
          · exact h2 ⟨ha, hb⟩
          · exact h ⟨ha, by omega, by omega⟩)]

theorem writeRecs_snd (data : List ColVal) :
    ∀ (k recNum row : Nat) (sheet : Sheet), (writeRecs data k recNum row sheet).2 = row + k := by
  intro k
  induction k with
  | zero => intro recNum row sheet; rfl
  | succ k ih =>
    intro recNum row sheet
    show (writeRecs data k (recNum + 1) (row + 1) _).2 = row + (k + 1)
    rw [ih]
    omega

theorem getCell_writeRecs (data : List ColVal) :
    ∀ (k recNum row : Nat) (sheet : Sheet) (a b : Nat),
      getCell (writeRecs data k recNum row sheet).1 a b =
        if row ≤ a ∧ a < row + k ∧ 1 ≤ b ∧ b ≤ data.length then
          some (colValue (data.getD (b - 1) (.scalar "")) (recNum + (a - row)))
        else getCell sheet a b := by
  intro k
  induction k with
  | zero =>
    intro recNum row sheet a b
    rw [if_neg (by rintro ⟨h1, h2, _⟩; omega)]
    rfl
  | succ k ih =>
    intro recNum row sheet a b
    show getCell (writeRecs data k (recNum + 1) (row + 1) (writeCols data 0 recNum row sheet)).1 a b = _
    rw [ih]
    by_cases h : row + 1 ≤ a ∧ a < row + 1 + k ∧ 1 ≤ b ∧ b ≤ data.length
    · rw [if_pos h, if_pos (by omega)]
      have e1 : recNum + 1 + (a - (row + 1)) = recNum + (a - row) := by omega
      rw [e1]
    · rw [if_neg h, getCell_writeCols]
      by_cases h2 : a = row ∧ 0 + 1 ≤ b ∧ b ≤ 0 + data.length
      · rw [if_pos h2, if_pos (by omega)]
        have e1 : recNum + (a - row) = recNum := by omega
        have e2 : b - (0 + 1) = b - 1 := by omega
        rw [e1, e2]
      · rw [if_neg h2, if_neg (by
          rintro ⟨ha1, ha2, hb1, hb2⟩
          by_cases hr : a = row
          · exact h2 ⟨hr, by omega, by omega⟩
          · exact h ⟨by omega, by omega, hb1, hb2⟩)]

theorem mapNormSeq_length :
    ∀ (l : List String) (pls : List String), mapNormSeq l = .ok pls → pls.length = l.length := by
  intro l
  induction l with
  | nil => intro pls h; cases h; rfl
  | cons s rest ih =>
    intro pls h
    unfold mapNormSeq at h
    cases hv : normSeqEntry s with
    | error e => rw [hv] at h; cases h
    | ok v =>
      rw [hv] at h
      cases hrest : mapNormSeq rest with
      | error e => rw [hrest] at h; cases h
      | ok vs =>
        rw [hrest] at h
        cases h
        simp [ih vs hrest]

theorem buildData_length (root : Xml) (pls : List String) :
    (buildData root pls).length = 20 := rfl

/-- Eliminate a successful run of the extractor body into its write loop. -/
theorem process_xml_body_ok (root : Xml) (sheet : Sheet) (row : Nat) (s2 : Sheet) (r2 : Nat)
    (h : process_xml_body root sheet row = .ok (s2, r2)) :
    ∃ pls, mapNormSeq (seqsRaw root) = .ok pls ∧
      pls.length = (lineItemsOf root).length ∧
      s2 = (writeRecs (buildData root pls) pls.length 0 row sheet).1 ∧
      r2 = (writeRecs (buildData root pls) pls.length 0 row sheet).2 := by
  unfold process_xml_body at h
  cases hm : mapNormSeq (seqsRaw root) with
  | error e => rw [hm] at h; cases h
  | ok pls =>
    rw [hm] at h
    have hpair : writeRecs (buildData root pls) pls.length 0 row sheet = (s2, r2) := by
      injection h with h2
    refine ⟨pls, rfl, ?_, ?_, ?_⟩
    · have hlen := mapNormSeq_length _ _ hm
      simpa [seqsRaw] using hlen
    · rw [hpair]
    · rw [hpair]

/-! ## Claims C3 and C10 -/

/-- A message whose single line item carries `sequenceNumber="²"`: the
extractor raises `ValueError` inside the `POLINESEQNRS` loop and returns
nothing. -/
def ceLineItem : Xml := .elem "lineItem" [("sequenceNumber", "²")] []

def ceTree : Xml :=
  .elem "intercompanyMessage" []
    [.elem "purchaseOrder" [] [.elem "lineItems" [] [ceLineItem]]]

/-- **C3** counterexample: a message with one line item on which the
extractor does not return `start_row + N` — it raises instead (the
superscript-two sequence number passes `isdigit` but `int()` rejects it). -/
theorem C3_counterexample :
    (lineItemsOf ceTree).length = 1 ∧
    process_xml_body ceTree [] 5 =
      .error (.valueError "invalid literal for int() with base 10: ²") :=
  ⟨by decide, by decide⟩

/-- **C3** amended: whenever the extractor completes without an exception, it
returns `start_row + N` where `N` is the number of `lineItem` nodes of the
parsed order in document order, writes one full output row (columns 1-20)
for every line item, and writes nothing when `N = 0`. -/
theorem C3_one_row_per_line_item (root : Xml) (sheet : Sheet) (row : Nat) (s2 : Sheet) (r2 : Nat)
    (h : process_xml_body root sheet row = .ok (s2, r2)) :
    r2 = row + (lineItemsOf root).length ∧
    ((lineItemsOf root).length = 0 → s2 = sheet) ∧
    (∀ k, k < (lineItemsOf root).length → ∀ b, 1 ≤ b → b ≤ 20 →
      (getCell s2 (row + k) b).isSome = true) := by
  obtain ⟨pls, hm, hlen, hs2, hr2⟩ := process_xml_body_ok root sheet row s2 r2 h
  refine ⟨?_, ?_, ?_⟩
  · rw [hr2, writeRecs_snd, hlen]
  · intro h0
    rw [hs2, show pls.length = 0 from by omega]
    rfl
  · intro k hk b hb1 hb2
    rw [hs2, getCell_writeRecs]
    rw [if_pos (by
      refine ⟨by omega, by omega, hb1, ?_⟩
      rw [buildData_length]
      omega)]
    rfl

/-- A well-formed one-line-item message used as a witness input. -/
def okLineItem : Xml := .elem "lineItem" [("sequenceNumber", "1")] []

def okTree : Xml :=
  .elem "intercompanyMessage" []
    [.elem "purchaseOrder" [] [.elem "lineItems" [] [okLineItem]]]

theorem C3_witness :
    (writeRecs (buildData okTree ["1"]) 1 0 2 []).2 = 2 + (lineItemsOf okTree).length :=
  (C3_one_row_per_line_item okTree [] 2
    (writeRecs (buildData okTree ["1"]) 1 0 2 []).1
    (writeRecs (buildData okTree ["1"]) 1 0 2 []).2 rfl).1

/-- **C10**: one completed extractor call with starting row `r` and `N` line
items writes only cells in rows `r` .. `r + N - 1`, columns 1-20 — every
other cell (header row, rows of earlier messages) reads back unchanged — and
in the write loop a per-line column whose list is shorter than the record
index yields the empty string rather than an error. -/
theorem C10_frame_and_defaults (root : Xml) (sheet : Sheet) (row : Nat) (s2 : Sheet) (r2 : Nat)
    (h : process_xml_body root sheet row = .ok (s2, r2)) :
    (∀ a b, a < row ∨ row + (lineItemsOf root).length ≤ a ∨ b = 0 ∨ 20 < b →
      getCell s2 a b = getCell sheet a b) ∧
    (∀ (data : List ColVal) (recNum rowW : Nat) (sheetW : Sheet) (idx : Nat) (l : List String),
      data.getD idx (.scalar "") = .perLine l → idx < data.length → l.length ≤ recNum →
      getCell (writeCols data 0 recNum rowW sheetW) rowW (idx + 1) = some "") := by
  constructor
  · intro a b hcond
    obtain ⟨pls, hm, hlen, hs2, _⟩ := process_xml_body_ok root sheet row s2 r2 h
    rw [hs2, getCell_writeRecs]
    rw [if_neg (by
      rintro ⟨h1, h2, h3, h4⟩
      rw [buildData_length] at h4
      rcases hcond with hc | hc | hc | hc <;> omega)]
  · intro data recNum rowW sheetW idx l hl hidx hrec
    rw [getCell_writeCols]
    rw [if_pos ⟨rfl, by omega, by omega⟩]
    rw [show idx + 1 - (0 + 1) = idx from by omega, hl]
    show some (l.getD recNum "") = some ""
    rw [List.getD_eq_default _ _ hrec]

theorem C10_witness :
    getCell (writeRecs (buildData okTree ["1"]) 1 0 2 []).1 1 1 = getCell ([] : Sheet) 1 1 ∧
    getCell (writeCols [ColVal.perLine []] 0 0 7 []) 7 1 = some "" := by
  have h := C10_frame_and_defaults okTree [] 2
    (writeRecs (buildData okTree ["1"]) 1 0 2 []).1
    (writeRecs (buildData okTree ["1"]) 1 0 2 []).2 rfl
  exact ⟨h.1 1 1 (Or.inl (by decide)),
    h.2 [ColVal.perLine []] 0 7 [] 0 [] rfl (by decide) (by decide)⟩

/-! ## Claim C2: error confinement -/

/-- The message text whose parse is `ceTree`. -/
def msgCE : String :=
  "<intercompanyMessage><purchaseOrder><lineItems><lineItem sequenceNumber=\"²\"></lineItem></lineItems></purchaseOrder></intercompanyMessage>"

/-- Stand-in for the lxml recover-mode parse of `msgCE`: one purchase order
with one line item whose `sequenceNumber` is the superscript-two character. -/
def parseCE : String → Except PyErr Xml := fun _ => .ok ceTree

set_option maxRecDepth 4000 in
/-- **C2** counterexample: a single-cell input with one well-formed message
whose field extraction raises (`int("²")`).  The call to
`process_xml_and_populate_xl_sheet` is not wrapped in `try`/`except`
(`app.py` lines 206-207, 242-243), so the exception propagates and the whole
scan aborts instead of skipping that message. -/
theorem C2_counterexample :
    process_excel parseCE [msgCE] =
      .error (.valueError "invalid literal for int() with base 10: ²") := by
  decide

/-- **C2** amended: an error raised while locating messages in a chunk
(`_extract_messages`) is caught: the scanner records the attempt, skips just
that chunk and continues at the next row (first conjunct).  But an exception
raised while PROCESSING one message (tolerant parse returning no usable
result, or a field computation raising) is not caught: the step fails (third
conjunct) and a failed step aborts the entire scan (second conjunct) — no
sibling messages are attempted and the remaining rows are not processed. -/
theorem C2_per_message_error_not_confined (parse : String → Except PyErr Xml)
    (colA : List String) (i : Nat) (st : ScanState) :
    (∀ e, hasOpenTag (colA.getD i "") = true → hasCloseTag (colA.getD i "") = true →
      ¬ (colA.getD i "").utf8ByteSize > MAX_XML_BYTES →
      extract_messages (colA.getD i "") = .error e →
      scanStep parse colA i st = .next (i + 1) { st with calls := st.calls ++ [colA.getD i ""] }) ∧
    (∀ fuel e, i < colA.length → scanStep parse colA i st = .failed e →
      scanAux parse colA (fuel + 1) i st = .error e) ∧
    (∀ messages e, hasOpenTag (colA.getD i "") = true → hasCloseTag (colA.getD i "") = true →
      ¬ (colA.getD i "").utf8ByteSize > MAX_XML_BYTES →
      extract_messages (colA.getD i "") = .ok messages →
      processMessages parse messages st.sheet st.currentRow = .error e →
      scanStep parse colA i st = .failed e) := by
  refine ⟨?_, ?_, ?_⟩
  · intro e hopen hclose hsize hex
    unfold scanStep
    dsimp only
    rw [hopen, hclose]
    simp only [Bool.true_or, Bool.true_and, if_true]
    rw [if_neg hsize, hex]
  · intro fuel e hi hs
    exact scanAux_failed parse colA fuel i st e hi hs
  · intro messages e hopen hclose hsize hex hproc
    unfold scanStep
    dsimp only
    rw [hopen, hclose]
    simp only [Bool.true_or, Bool.true_and, if_true]
    rw [if_neg hsize, hex]
    dsimp only
    rw [hproc]

set_option maxRecDepth 4000 in
theorem C2_witness :
    scanAux parseCE [msgCE] 1 0 initState =
      .error (.valueError "invalid literal for int() with base 10: ²") :=
  (C2_per_message_error_not_confined parseCE [msgCE] 0 initState).2.1 0 _ (by decide)
    ((C2_per_message_error_not_confined parseCE [msgCE] 0 initState).2.2 [msgCE] _
      (by decide) (by decide) (by decide) (by decide) (by decide))

/-! ## Claim C7: the ADDRESS field -/

mutual
/-- Claim-side recursion for the `ADDRESS` source data: the text values of
`purchaseOrderDetail` elements of `type="shiptoaddress"` lying under a
`purchaseOrderDetails` collection under a `header` under a `purchaseOrder`,
in document order.  `po`/`hd`/`det` record which chain ancestors are above. -/
def shipSpec : Bool → Bool → Bool → Xml → List String
  | _, _, _, .text _ => []
  | po, hd, det, .elem tg attrs cs =>
    shipSpecKids (po || decide (tg = "purchaseOrder"))
      (hd || (po && decide (tg = "header")))
      (det || (hd && decide (tg = "purchaseOrderDetails")))
      (det && decide (tg = "purchaseOrderDetail") &&
        decide ((Xml.elem tg attrs cs).attr? "type" = some "shiptoaddress")) cs

def shipSpecKids : Bool → Bool → Bool → Bool → List Xml → List String
  | _, _, _, _, [] => []
  | po, hd, det, isM, .text s :: rest =>
    (if isM then [s] else []) ++ shipSpecKids po hd det isM rest
  | po, hd, det, isM, .elem tg attrs cs :: rest =>
    shipSpec po hd det (.elem tg attrs cs) ++ shipSpecKids po hd det isM rest
end

def chainPO (anc : List Xml) : Bool := isSubchain ["purchaseOrder"] (tagsOf anc)
def chainHD (anc : List Xml) : Bool := isSubchain ["purchaseOrder", "header"] (tagsOf anc)
def chainDET (anc : List Xml) : Bool :=
  isSubchain ["purchaseOrder", "header", "purchaseOrderDetails"] (tagsOf anc)

theorem tagsOf_append_elem (anc : List Xml) (tg : String) (attrs : List (String × String))
    (pcs : List Xml) : tagsOf (anc ++ [.elem tg attrs pcs]) = tagsOf anc ++ [tg] := by
  unfold tagsOf
  rw [List.filterMap_append]
  rfl

theorem isSubchain_one_append (a t : String) (l : List String) :
    isSubchain [a] (l ++ [t]) = (isSubchain [a] l || decide (t = a)) := by
  induction l with
  | nil =>
    show isSubchain [a] [t] = _
    unfold isSubchain
    by_cases h : t = a <;> simp [h, isSubchain]
  | cons x xs ih =>
    show isSubchain [a] (x :: (xs ++ [t])) = _
    unfold isSubchain
    by_cases h : x = a <;> simp [h, ih, isSubchain]

theorem isSubchain_two_append (a b t : String) (l : List String) :
    isSubchain [a, b] (l ++ [t]) =
      (isSubchain [a, b] l || (isSubchain [a] l && decide (t = b))) := by
  induction l with
  | nil =>
    show isSubchain [a, b] [t] = _
    unfold isSubchain
    by_cases h : t = a <;> simp [h, isSubchain]
  | cons x xs ih =>
    show isSubchain [a, b] (x :: (xs ++ [t])) = _
    unfold isSubchain
    by_cases h : x = a
    · simp only [h, if_true, if_pos rfl]
      rw [isSubchain_one_append]
      simp [isSubchain]
    · simp only [h, if_false, if_neg h]
      rw [ih]

theorem isSubchain_three_append (a b c t : String) (l : List String) :
    isSubchain [a, b, c] (l ++ [t]) =
      (isSubchain [a, b, c] l || (isSubchain [a, b] l && decide (t = c))) := by
  induction l with
  | nil =>
    show isSubchain [a, b, c] [t] = _
    unfold isSubchain
    by_cases h : t = a <;> simp [h, isSubchain]
  | cons x xs ih =>
    show isSubchain [a, b, c] (x :: (xs ++ [t])) = _
    unfold isSubchain
    by_cases h : x = a
    · simp only [h, if_true, if_pos rfl]
      rw [isSubchain_two_append]
    · simp only [h, if_false, if_neg h]
      rw [ih]

theorem chainPO_append (anc : List Xml) (tg : String) (attrs : List (String × String))
    (pcs : List Xml) :
    chainPO (anc ++ [.elem tg attrs pcs]) = (chainPO anc || decide (tg = "purchaseOrder")) := by
  unfold chainPO
  rw [tagsOf_append_elem, isSubchain_one_append]

theorem chainHD_append (anc : List Xml) (tg : String) (attrs : List (String × String))
    (pcs : List Xml) :
    chainHD (anc ++ [.elem tg attrs pcs]) =
      (chainHD anc || (chainPO anc && decide (tg = "header"))) := by
  unfold chainHD chainPO
  rw [tagsOf_append_elem, isSubchain_two_append]

theorem chainDET_append (anc : List Xml) (tg : String) (attrs : List (String × String))
    (pcs : List Xml) :
    chainDET (anc ++ [.elem tg attrs pcs]) =
      (chainDET anc || (chainHD anc && decide (tg = "purchaseOrderDetails"))) := by
  unfold chainDET chainHD
  rw [tagsOf_append_elem, isSubchain_three_append]

/-- Abbreviation for the `ADDRESS` text selector. -/
def shipSel : List Xml × Xml → Option String :=
  textSel ["purchaseOrder", "header", "purchaseOrderDetails"] "purchaseOrderDetail"
    (typeIs "shiptoaddress")

theorem shipCond_iff (tg : String) (attrs : List (String × String)) (pcs : List Xml)
    (anc : List Xml) :
    ((Xml.elem tg attrs pcs).tag? = some "purchaseOrderDetail" ∧
      typeIs "shiptoaddress" (Xml.elem tg attrs pcs) = true ∧
      isSubchain ["purchaseOrder", "header", "purchaseOrderDetails"] (tagsOf anc) = true) ↔
    (chainDET anc && decide (tg = "purchaseOrderDetail") &&
      decide ((Xml.elem tg attrs pcs).attr? "type" = some "shiptoaddress")) = true := by
  simp only [Bool.and_eq_true, decide_eq_true_eq, Xml.tag?, Option.some.injEq, typeIs,
    decide_eq_true_eq, chainDET]
  constructor
  · rintro ⟨h1, h2, h3⟩
    exact ⟨⟨h3, h1⟩, h2⟩
  · rintro ⟨⟨h3, h1⟩, h2⟩
    exact ⟨h1, h2, h3⟩

mutual
/-- The descendant-query implementation of the `ADDRESS` source data agrees
with the claim-side recursion `shipSpec`. -/
theorem shipSpec_eq : ∀ (tg : String) (attrs : List (String × String)) (cs : List Xml)
    (anc : List Xml),
    (collectAnc anc (.elem tg attrs cs)).filterMap shipSel =
      shipSpec (chainPO anc) (chainHD anc) (chainDET anc) (.elem tg attrs cs)
  | tg, attrs, cs, anc => by
    show (((anc, Xml.elem tg attrs cs) :: collectAncList (anc ++ [.elem tg attrs cs]) cs).filterMap
      shipSel) = _
    rw [List.filterMap_cons_none (by rfl)]
    rw [shipSpecKids_eq tg attrs cs cs anc]
    show _ = shipSpec (chainPO anc) (chainHD anc) (chainDET anc) (.elem tg attrs cs)
    unfold shipSpec
    rw [chainPO_append, chainHD_append, chainDET_append]

theorem shipSpecKids_eq : ∀ (tg : String) (attrs : List (String × String)) (pcs : List Xml)
    (cs : List Xml) (anc : List Xml),
    (collectAncList (anc ++ [.elem tg attrs pcs]) cs).filterMap shipSel =
      shipSpecKids (chainPO (anc ++ [.elem tg attrs pcs]))
        (chainHD (anc ++ [.elem tg attrs pcs]))
        (chainDET (anc ++ [.elem tg attrs pcs]))
        (chainDET anc && decide (tg = "purchaseOrderDetail") &&
          decide ((Xml.elem tg attrs pcs).attr? "type" = some "shiptoaddress")) cs
  | tg, attrs, pcs, [], anc => by
    rfl
  | tg, attrs, pcs, .text s :: rest, anc => by
    show ((collectAnc (anc ++ [Xml.elem tg attrs pcs]) (.text s) ++
      collectAncList (anc ++ [Xml.elem tg attrs pcs]) rest).filterMap shipSel) =
      (if (chainDET anc && decide (tg = "purchaseOrderDetail") &&
          decide ((Xml.elem tg attrs pcs).attr? "type" = some "shiptoaddress")) = true
       then [s] else []) ++
      shipSpecKids (chainPO (anc ++ [Xml.elem tg attrs pcs]))
        (chainHD (anc ++ [Xml.elem tg attrs pcs]))
        (chainDET (anc ++ [Xml.elem tg attrs pcs]))
        (chainDET anc && decide (tg = "purchaseOrderDetail") &&
          decide ((Xml.elem tg attrs pcs).attr? "type" = some "shiptoaddress")) rest
    rw [List.filterMap_append, shipSpecKids_eq tg attrs pcs rest anc]
    congr 1
    have hsel : shipSel (anc ++ [Xml.elem tg attrs pcs], Xml.text s) =
        (if (chainDET anc && decide (tg = "purchaseOrderDetail") &&
          decide ((Xml.elem tg attrs pcs).attr? "type" = some "shiptoaddress")) = true
         then some s else none) := by
      unfold shipSel textSel
      dsimp only
      rw [List.getLast?_concat, List.dropLast_concat]
      dsimp only
      by_cases hb : (chainDET anc && decide (tg = "purchaseOrderDetail") &&
          decide ((Xml.elem tg attrs pcs).attr? "type" = some "shiptoaddress")) = true
      · rw [if_pos hb, if_pos ((shipCond_iff tg attrs pcs anc).mpr hb)]
      · rw [if_neg hb, if_neg (fun hc => hb ((shipCond_iff tg attrs pcs anc).mp hc))]
    rw [show collectAnc (anc ++ [Xml.elem tg attrs pcs]) (Xml.text s) =
      [(anc ++ [Xml.elem tg attrs pcs], Xml.text s)] from rfl]
    rw [List.filterMap_cons, hsel]
    by_cases hb : (chainDET anc && decide (tg = "purchaseOrderDetail") &&
        decide ((Xml.elem tg attrs pcs).attr? "type" = some "shiptoaddress")) = true
    · rw [if_pos hb, if_pos hb]
      rfl
    · rw [if_neg hb, if_neg hb]
      rfl
  | tg, attrs, pcs, .elem ctg cattrs ccs :: rest, anc => by
    show ((collectAnc (anc ++ [Xml.elem tg attrs pcs]) (Xml.elem ctg cattrs ccs) ++
      collectAncList (anc ++ [Xml.elem tg attrs pcs]) rest).filterMap shipSel) =
      shipSpec (chainPO (anc ++ [Xml.elem tg attrs pcs]))
        (chainHD (anc ++ [Xml.elem tg attrs pcs]))
        (chainDET (anc ++ [Xml.elem tg attrs pcs])) (Xml.elem ctg cattrs ccs) ++
      shipSpecKids (chainPO (anc ++ [Xml.elem tg attrs pcs]))
        (chainHD (anc ++ [Xml.elem tg attrs pcs]))
        (chainDET (anc ++ [Xml.elem tg attrs pcs]))
        (chainDET anc && decide (tg = "purchaseOrderDetail") &&
          decide ((Xml.elem tg attrs pcs).attr? "type" = some "shiptoaddress")) rest
    rw [List.filterMap_append, shipSpec_eq ctg cattrs ccs (anc ++ [Xml.elem tg attrs pcs]),
      shipSpecKids_eq tg attrs pcs rest anc]
end

/-- A message whose ship-to detail sits DIRECTLY under `header` with no
`purchaseOrderDetails` collection in between. -/
def ce7 : Xml :=
  .elem "intercompanyMessage" []
    [.elem "purchaseOrder" []
      [.elem "header" [] [.elem "purchaseOrderDetail" [("type", "shiptoaddress")] [.text "X"]],
       .elem "lineItems" [] [okLineItem]]]

set_option maxRecDepth 4000 in
/-- **C7** counterexample: the claim selects ALL header `purchaseOrderDetail`
elements of the ship-to type, but the code's XPath requires an intervening
`purchaseOrderDetails` collection: on a message whose detail sits directly
under `header` the claim-side value is `"X"` while the ADDRESS cell written
on the line-item row is `""`. -/
theorem C7_counterexample :
    descTextQ ce7 ["purchaseOrder", "header"] "purchaseOrderDetail" (typeIs "shiptoaddress") =
      ["X"] ∧
    (match process_xml_body ce7 [] 2 with
     | .ok (s2, _) => getCell s2 2 15
     | .error _ => none) = some "" ∧
    ("X" : String) ≠ "" :=
  ⟨by decide, by decide, by decide⟩

/-- **C7** amended: on every completed extraction, the ADDRESS value repeated
on each line-item row equals the text values of the `purchaseOrderDetail`
elements of `type="shiptoaddress"` under a `purchaseOrderDetails` collection
under the order's header, joined with `"; "` in REVERSE document order
(`shipSpec` is an independent recursion over the tree following that
description). -/
theorem C7_address_on_every_row (root : Xml) (sheet : Sheet) (row : Nat) (s2 : Sheet) (r2 : Nat)
    (h : process_xml_body root sheet row = .ok (s2, r2)) :
    ∀ k, k < (lineItemsOf root).length →
      getCell s2 (row + k) 15 =
        some ("; ".intercalate (shipSpec false false false root).reverse) := by
  obtain ⟨pls, hm, hlen, hs2, _⟩ := process_xml_body_ok root sheet row s2 r2 h
  intro k hk
  rw [hs2, getCell_writeRecs]
  rw [if_pos (by
    refine ⟨by omega, by omega, by omega, ?_⟩
    rw [buildData_length]
    omega)]
  show some ("; ".intercalate (descTextQ root ["purchaseOrder", "header", "purchaseOrderDetails"]
    "purchaseOrderDetail" (typeIs "shiptoaddress")).reverse) = some _
  congr 2
  cases root with
  | text s => rfl
  | elem tg attrs cs =>
    have heq := shipSpec_eq tg attrs cs []
    rw [show chainPO [] = false from rfl, show chainHD [] = false from rfl,
      show chainDET [] = false from rfl] at heq
    unfold shipSel at heq
    unfold descTextQ
    rw [heq]

/-- A message whose header carries two ship-to details inside a
`purchaseOrderDetails` collection, texts `"A"` then `"B"` in document
order. -/
def ok7 : Xml :=
  .elem "intercompanyMessage" []
    [.elem "purchaseOrder" []
      [.elem "header" []
        [.elem "purchaseOrderDetails" []
          [.elem "purchaseOrderDetail" [("type", "shiptoaddress")] [.text "A"],
           .elem "purchaseOrderDetail" [("type", "shiptoaddress")] [.text "B"]]],
       .elem "lineItems" [] [okLineItem]]]

set_option maxRecDepth 4000 in
theorem C7_witness :
    getCell (writeRecs (buildData ok7 ["1"]) 1 0 2 []).1 2 15 = some "B; A" := by
  have h := C7_address_on_every_row ok7 [] 2
    (writeRecs (buildData ok7 ["1"]) 1 0 2 []).1
    (writeRecs (buildData ok7 ["1"]) 1 0 2 []).2 rfl 0 (by decide)
  exact h.trans (by decide)

/-! ## Claim C4: multi-row reassembly -/

theorem existsMatch_append (p : List Char → Bool) (l1 l2 : List Char)
    (h : existsMatch p l2 = true) : existsMatch p (l1 ++ l2) = true := by
  induction l1 with
  | nil => simpa using h
  | cons c cs ih =>
    show (p (c :: (cs ++ l2)) || existsMatch p (cs ++ l2)) = true
    rw [ih]
    simp

theorem range_map_getD : ∀ (l : List String),
    (List.range l.length).map (fun t => l.getD t "") = l := by
  intro l
  induction l with
  | nil => rfl
  | cons x xs ih =>
    show (List.range (xs.length + 1)).map (fun t => (x :: xs).getD t "") = x :: xs
    rw [List.range_succ_eq_map, List.map_cons, List.map_map]
    refine congrArg₂ List.cons rfl ?_
    rw [show ((fun t => (x :: xs).getD t "") ∘ Nat.succ) = (fun t => xs.getD t "") from
      funext (fun t => List.getD_cons_succ ..), ih]

/-- The single-cell fast path of the scanner, fully characterized. -/
theorem scanStep_fast (parse : String → Except PyErr Xml) (colA : List String) (i : Nat)
    (st : ScanState)
    (hopen : hasOpenTag (colA.getD i "") = true)
    (hcl : hasCloseTag (colA.getD i "") = true) :
    scanStep parse colA i st =
      (if (colA.getD i "").utf8ByteSize > MAX_XML_BYTES then .next (i + 1) st
       else
        match extract_messages (colA.getD i "") with
        | .error _ => .next (i + 1) { st with calls := st.calls ++ [colA.getD i ""] }
        | .ok messages =>
          match processMessages parse messages st.sheet st.currentRow with
          | .error e => .failed e
          | .ok (sheet2, row2) =>
            .next (i + 1)
              { sheet := sheet2, currentRow := row2,
                calls := st.calls ++ [colA.getD i ""], msgs := st.msgs ++ messages }) := by
  unfold scanStep
  dsimp only
  rw [hopen, hcl]
  simp only [Bool.true_or, Bool.true_and, if_true]

/-- The multi-row path on a chunk properly bounded by `mid.length + 1` cells:
the first fragment opens (and does not close), the middle fragments are
closing-tag-free, the final fragment closes, and the part cap is not hit.
The chunk is the concatenation and scanning resumes after the final
fragment. -/
theorem scanStep_multi_bounded (parse : String → Except PyErr Xml)
    (f0 fl : String) (mid : List String) (st : ScanState)
    (hopen : hasOpenTag f0 = true)
    (hnc0 : hasCloseTag f0 = false)
    (hmid : ∀ x ∈ mid, hasCloseTag x = false)
    (hcl : hasCloseTag fl = true)
    (hlen : mid.length ≤ 999) :
    scanStep parse (f0 :: mid ++ [fl]) 0 st =
      (if (f0 ++ String.join mid ++ fl).utf8ByteSize > MAX_XML_BYTES then
        .next (mid.length + 2) st
       else
        match extract_messages (f0 ++ String.join mid ++ fl) with
        | .error _ =>
          .next (mid.length + 2) { st with calls := st.calls ++ [f0 ++ String.join mid ++ fl] }
        | .ok messages =>
          match processMessages parse messages st.sheet st.currentRow with
          | .error e => .failed e
          | .ok (sheet2, row2) =>
            .next (mid.length + 2)
              { sheet := sheet2, currentRow := row2,
                calls := st.calls ++ [f0 ++ String.join mid ++ fl],
                msgs := st.msgs ++ messages }) := by
  have hn : (f0 :: mid ++ [fl]).length = mid.length + 2 := by simp
  have hmidD : ∀ t, t < mid.length → (f0 :: mid ++ [fl]).getD (1 + t) "" = mid.getD t "" := by
    intro t ht
    rw [show 1 + t = t + 1 by omega]
    show (mid ++ [fl]).getD t "" = mid.getD t ""
    rw [List.getD_append _ _ _ _ ht]
  have hflD : (f0 :: mid ++ [fl]).getD (1 + mid.length) "" = fl := by
    rw [show 1 + mid.length = mid.length + 1 by omega]
    show (mid ++ [fl]).getD mid.length "" = fl
    rw [List.getD_append_right _ _ _ _ (Nat.le_refl _), Nat.sub_self]
    rfl
  have hacc : accumulate (f0 :: mid ++ [fl]) (f0 :: mid ++ [fl]).length [f0] 1 =
      ([f0] ++ mid, 1 + mid.length) := by
    rw [accumulate_no_break (f0 :: mid ++ [fl]) (f0 :: mid ++ [fl]).length mid.length 1 [f0]
      (fun t ht => by
        rw [hmidD t ht]
        exact hmid _ (by
          rw [List.getD_eq_getElem _ _ ht]
          exact List.getElem_mem ht))
      (by rw [hn]; omega)
      (Or.inr (by rw [hflD]; exact hcl))
      (by simp only [List.length_cons, List.length_nil, MAX_PARTS]; omega)]
    refine congrArg₂ Prod.mk (congrArg _ ?_) rfl
    exact (List.map_congr_left (fun t ht => hmidD t (List.mem_range.mp ht))).trans
      (range_map_getD mid)
  have hjoin : String.join (([f0] ++ mid) ++ [(f0 :: mid ++ [fl]).getD (1 + mid.length) ""]) =
      f0 ++ String.join mid ++ fl := by
    rw [hflD, join_append, join_append, join_cons]
    rw [show String.join [] = "" from rfl, string_append_empty, join_cons,
      show String.join [] = "" from rfl, string_append_empty]
  unfold scanStep
  dsimp only
  rw [show (f0 :: mid ++ [fl]).getD 0 "" = f0 from rfl, hopen, hnc0]
  simp only [Bool.true_or, Bool.true_and, if_true, Bool.false_eq_true, if_false]
  rw [hacc]
  dsimp only
  rw [if_neg (by rw [hn]; omega), hjoin]
  rw [show 1 + mid.length + 1 = mid.length + 2 by omega]

/-- C4 counterexample: the same well-formed message supplied in one cell
yields the message, but splitting it inside the closing tag (cells
ending in "</intercompany" and starting with "Message>") yields nothing:
no single cell matches the closing-tag pattern, so the accumulation runs
off the end of the input and the chunk is dropped without extraction. -/
theorem C4_counterexample :
    ("<intercompanyMessage>a</intercompany" ++ "Message>" =
        "<intercompanyMessage>a</intercompanyMessage>") ∧
    (process_excel parseK ["<intercompanyMessage>a</intercompanyMessage>"]).toOption.map
        ScanState.msgs = some ["<intercompanyMessage>a</intercompanyMessage>"] ∧
    (process_excel parseK ["<intercompanyMessage>a</intercompany", "Message>"]).toOption.map
        ScanState.msgs = some [] :=
  ⟨rfl, by decide, by decide⟩

/-- C4 (amended): multi-row reassembly is faithful when the split respects
the tag patterns: if the first fragment matches the opening pattern and not
the closing pattern, no middle fragment matches the closing pattern, the
final fragment matches the closing pattern, at most 1001 cells are
involved, and the concatenation still matches the opening pattern, then
scanning the fragments in consecutive cells is indistinguishable (same
sheet, same cursor, same extraction calls, same messages, same error) from
scanning the concatenation supplied in a single cell. -/
theorem C4_fragment_reassembly (parse : String → Except PyErr Xml)
    (f0 fl : String) (mid : List String)
    (hopen : hasOpenTag f0 = true)
    (hnc0 : hasCloseTag f0 = false)
    (hmid : ∀ x ∈ mid, hasCloseTag x = false)
    (hcl : hasCloseTag fl = true)
    (hlen : mid.length ≤ 999)
    (hopenJ : hasOpenTag (f0 ++ String.join mid ++ fl) = true) :
    process_excel parse (f0 :: mid ++ [fl]) =
      process_excel parse [f0 ++ String.join mid ++ fl] := by
  have hclJ : hasCloseTag (f0 ++ String.join mid ++ fl) = true := by
    show existsMatch (fun l => (closeAt l).isSome) (f0 ++ String.join mid ++ fl).data = true
    rw [String.data_append]
    exact existsMatch_append _ _ _ hcl
  have hn : (f0 :: mid ++ [fl]).length = mid.length + 2 := by simp
  have hiL : 0 < (f0 :: mid ++ [fl]).length := by simp
  have hiR : 0 < ([f0 ++ String.join mid ++ fl] : List String).length := by simp
  have hstep := scanStep_multi_bounded parse f0 fl mid initState hopen hnc0 hmid hcl hlen
  have hstepR := scanStep_fast parse [f0 ++ String.join mid ++ fl] 0 initState hopenJ hclJ
  simp only [List.getD_cons_zero] at hstepR
  have stepL : ∀ (i2 : Nat) (st2 : ScanState),
      scanStep parse (f0 :: mid ++ [fl]) 0 initState = .next i2 st2 →
      scanAux parse (f0 :: mid ++ [fl]) (mid.length + 2) 0 initState =
        scanAux parse (f0 :: mid ++ [fl]) (mid.length + 1) i2 st2 := by
    intro i2 st2 hs
    show scanAux parse (f0 :: mid ++ [fl]) ((mid.length + 1) + 1) 0 initState = _
    exact scanAux_step parse _ (mid.length + 1) 0 initState i2 st2 hiL hs
  have stepR : ∀ (i2 : Nat) (st2 : ScanState),
      scanStep parse [f0 ++ String.join mid ++ fl] 0 initState = .next i2 st2 →
      scanAux parse [f0 ++ String.join mid ++ fl] 1 0 initState =
        scanAux parse [f0 ++ String.join mid ++ fl] 0 i2 st2 := by
    intro i2 st2 hs
    show scanAux parse [f0 ++ String.join mid ++ fl] (0 + 1) 0 initState = _
    exact scanAux_step parse _ 0 0 initState i2 st2 hiR hs
  have failL : ∀ e : PyErr, scanStep parse (f0 :: mid ++ [fl]) 0 initState = .failed e →
      scanAux parse (f0 :: mid ++ [fl]) (mid.length + 2) 0 initState = .error e := by
    intro e hs
    show scanAux parse (f0 :: mid ++ [fl]) ((mid.length + 1) + 1) 0 initState = .error e
    exact scanAux_failed parse _ (mid.length + 1) 0 initState e hiL hs
  have failR : ∀ e : PyErr, scanStep parse [f0 ++ String.join mid ++ fl] 0 initState = .failed e →
      scanAux parse [f0 ++ String.join mid ++ fl] 1 0 initState = .error e := by
    intro e hs
    show scanAux parse [f0 ++ String.join mid ++ fl] (0 + 1) 0 initState = .error e
    exact scanAux_failed parse _ 0 0 initState e hiR hs
  have doneL : ∀ st2 : ScanState,
      scanAux parse (f0 :: mid ++ [fl]) (mid.length + 1) (mid.length + 2) st2 = .ok st2 := by
    intro st2
    exact scanAux_done parse _ (mid.length + 1) (mid.length + 2) st2 (by rw [hn]; omega)
  unfold process_excel
  rw [hn, List.length_singleton]
  by_cases hsz : (f0 ++ String.join mid ++ fl).utf8ByteSize > MAX_XML_BYTES
  · rw [if_pos hsz] at hstep hstepR
    rw [stepL _ _ hstep, stepR _ _ hstepR, doneL initState]
    rfl
  · rw [if_neg hsz] at hstep hstepR
    cases hex : extract_messages (f0 ++ String.join mid ++ fl) with
    | error e =>
      rw [hex] at hstep hstepR
      dsimp only at hstep hstepR
      rw [stepL _ _ hstep, stepR _ _ hstepR, doneL _]
      rfl
    | ok messages =>
      rw [hex] at hstep hstepR
      dsimp only at hstep hstepR
      cases hpm : processMessages parse messages initState.sheet initState.currentRow with
      | error e =>
        rw [hpm] at hstep hstepR
        dsimp only at hstep hstepR
        rw [failL _ hstep, failR _ hstepR]
      | ok pr =>
        obtain ⟨sheet2, row2⟩ := pr
        rw [hpm] at hstep hstepR
        dsimp only at hstep hstepR
        rw [stepL _ _ hstep, stepR _ _ hstepR, doneL _]
        rfl

/-- C4 witness: a concrete three-cell split respecting the tag patterns,
equal to the single-cell scan. -/
theorem C4_witness :
    process_excel parseK ("<intercompanyMessage>" :: ["<a>x</a>"] ++ ["</intercompanyMessage>"]) =
      process_excel parseK
        ["<intercompanyMessage>" ++ String.join ["<a>x</a>"] ++ "</intercompanyMessage>"] :=
  C4_fragment_reassembly parseK "<intercompanyMessage>" "</intercompanyMessage>" ["<a>x</a>"]
    (by decide) (by decide) (by decide) (by decide) (by decide) (by decide)
